import Mathlib

/-!
Verification development for the n10storage benchmark analysis code
(src/n10storage/parse.py and src/n10storage/contention.py).

Modelling conventions:
* Python strings are lists of characters; Python numeric values are
  rationals (floats) and integers, never floating point.
* Fallible Python operations are modelled with Except/Option; an uncaught
  Python exception is an error value of the inductive type PyErr.
* pandas tables are lists of typed rows; NaN cells are Option.none.
-/

namespace N10

/-- Kinds of Python exception that the modelled code can raise. -/
inductive PyErr where
  | valueError
  | attributeError
  | indexError
  | typeError
  | keyError
deriving DecidableEq

/-! ## Python string primitives (str modelled as List Char) -/

/-- Drop leading whitespace characters. -/
def dropWs : List Char → List Char
  | [] => []
  | c :: t => if c.isWhitespace then dropWs t else c :: t

/-- Python str.strip(): remove leading and trailing whitespace. -/
def pyStrip (s : List Char) : List Char :=
  (dropWs (dropWs s).reverse).reverse

/-- Drop leading copies of one character. -/
def dropLeadChar (c : Char) : List Char → List Char
  | [] => []
  | d :: t => if d = c then dropLeadChar c t else d :: t

/-- Python str.rstrip(c): remove all trailing copies of c. -/
def pyRstrip (c : Char) (s : List Char) : List Char :=
  (dropLeadChar c s.reverse).reverse

/-- Python str.startswith. -/
def pyStarts : List Char → List Char → Bool
  | [], _ => true
  | _ :: _, [] => false
  | p :: ps, c :: cs => p == c && pyStarts ps cs

/-- Python `needle in haystack` (substring test). -/
def pyContains (needle : List Char) : List Char → Bool
  | [] => pyStarts needle []
  | c :: t => pyStarts needle (c :: t) || pyContains needle t

/-- Python str.lower() (ASCII). -/
def pyLower (s : List Char) : List Char := s.map Char.toLower

/-- Helper for pySplitWs: cur is the current field, reversed. -/
def pySplitWsAux (cur : List Char) : List Char → List (List Char)
  | [] => if cur.isEmpty then [] else [cur.reverse]
  | c :: t =>
    if c.isWhitespace then
      if cur.isEmpty then pySplitWsAux [] t else cur.reverse :: pySplitWsAux [] t
    else pySplitWsAux (c :: cur) t

/-- Python str.split() with no argument: split on whitespace runs,
discarding empty fields. -/
def pySplitWs (s : List Char) : List (List Char) := pySplitWsAux [] s

/-- Helper for pySplitOn: cur is the current field, reversed. -/
def pySplitOnAux (sep : Char) (cur : List Char) : List Char → List (List Char)
  | [] => [cur.reverse]
  | c :: t =>
    if c = sep then cur.reverse :: pySplitOnAux sep [] t
    else pySplitOnAux sep (c :: cur) t

/-- Python str.split(sep): split on a separator character, keeping empty
fields; the result is never the empty list. -/
def pySplitOn (sep : Char) (s : List Char) : List (List Char) :=
  pySplitOnAux sep [] s

/-- The text after the first occurrence of sep, if any. -/
def pyAfterFirstAux (sep : Char) : List Char → Option (List Char)
  | [] => none
  | c :: t => if c = sep then some t else pyAfterFirstAux sep t

/-- Python s.split(sep, 1)[-1]: the text after the first separator, or the
whole string when the separator does not occur. -/
def pyAfterFirst (sep : Char) (s : List Char) : List Char :=
  match pyAfterFirstAux sep s with
  | some t => t
  | none => s

/-! ## Python numeric literal parsing -/

/-- Accumulate decimal digits into a natural number. -/
def digitsToNat (acc : Nat) : List Char → Nat
  | [] => acc
  | c :: t => digitsToNat (acc * 10 + (c.toNat - 48)) t

/-- All characters are decimal digits. -/
def allDigits (l : List Char) : Bool := l.all Char.isDigit

/-- Python int(str): optional surrounding whitespace, an optional sign and a
nonempty run of decimal digits.  (Underscore digit grouping, an inessential
Python extension, is not modelled.) -/
def pyIntParse (s : List Char) : Option Int :=
  match pyStrip s with
  | [] => none
  | '+' :: d =>
    if d = [] then none
    else if allDigits d then some (digitsToNat 0 d : Nat) else none
  | '-' :: d =>
    if d = [] then none
    else if allDigits d then some (-(digitsToNat 0 d : Nat) : Int) else none
  | d => if allDigits d then some (digitsToNat 0 d : Nat) else none

/-- The longest digit run at the head, and the remainder. -/
def spanDigits : List Char → List Char × List Char
  | [] => ([], [])
  | c :: t =>
    if c.isDigit then
      let p := spanDigits t
      (c :: p.1, p.2)
    else ([], c :: t)

/-- Decimal exponent of a float literal: optional sign, nonempty digits. -/
def expParse (r : List Char) : Option Int :=
  match r with
  | '+' :: d =>
    if d = [] then none
    else if allDigits d then some (digitsToNat 0 d : Nat) else none
  | '-' :: d =>
    if d = [] then none
    else if allDigits d then some (-(digitsToNat 0 d : Nat) : Int) else none
  | d =>
    if d = [] then none
    else if allDigits d then some (digitsToNat 0 d : Nat) else none

/-- Ten to an integer power, as a rational. -/
def pow10 (e : Int) : ℚ :=
  if 0 ≤ e then ((10 : ℚ) ^ e.toNat) else 1 / ((10 : ℚ) ^ (-e).toNat)

/-- Python float(str) on finite decimal literals: optional surrounding
whitespace and sign, integer digits with an optional fractional part and an
optional decimal exponent; at least one mantissa digit is required.
(inf/nan literals and underscore grouping are not modelled; the code under
analysis never feeds them to float().) -/
def pyFloatParse (s : List Char) : Option ℚ :=
  let t := pyStrip s
  let sgn : ℚ × List Char :=
    match t with
    | '+' :: r => (1, r)
    | '-' :: r => (-1, r)
    | r => (1, r)
  let ip := spanDigits sgn.2
  let fr : List Char × List Char :=
    match ip.2 with
    | '.' :: r => spanDigits r
    | r => ([], r)
  if ip.1 = [] ∧ fr.1 = [] then none
  else
    let base : ℚ :=
      (digitsToNat 0 ip.1 : ℚ) + (digitsToNat 0 fr.1 : ℚ) / (10 : ℚ) ^ fr.1.length
    match fr.2 with
    | [] => some (sgn.1 * base)
    | c :: r =>
      if c = 'e' ∨ c = 'E' then
        match expParse r with
        | some e => some (sgn.1 * base * pow10 e)
        | none => none
      else none

/-! ## Parsed values and coercion (parse.py BenchmarkOutput.coerce_value) -/

/-- A value held in a parsed record: Python None, int, float or str. -/
inductive PyVal where
  | vnone
  | vint (n : Int)
  | vfloat (q : ℚ)
  | vstr (s : List Char)
deriving DecidableEq

/-- BenchmarkOutput.coerce_value: explicit absent markers become None; a
value containing a dot is given to float(), one without to int(); a
ValueError from the one attempted conversion returns the text unchanged. -/
def coerce_value (value : List Char) : PyVal :=
  if value = "-".toList ∨ value = "NA".toList then PyVal.vnone
  else if value.contains '.' then
    match pyFloatParse value with
    | some q => PyVal.vfloat q
    | none => PyVal.vstr value
  else
    match pyIntParse value with
    | some n => PyVal.vint n
    | none => PyVal.vstr value

/-- The spec sentence for value coercion, taken at its word: absent markers
become None; otherwise an integer parse is attempted and, failing that, a
float parse, with the presence of a dot deciding the attempt order; the text
is returned unchanged only when no numeric parse succeeds. -/
def coerce_value_specWording (value : List Char) : PyVal :=
  if value = "-".toList ∨ value = "NA".toList then PyVal.vnone
  else if value.contains '.' then
    match pyFloatParse value with
    | some q => PyVal.vfloat q
    | none =>
      match pyIntParse value with
      | some n => PyVal.vint n
      | none => PyVal.vstr value
  else
    match pyIntParse value with
    | some n => PyVal.vint n
    | none =>
      match pyFloatParse value with
      | some q => PyVal.vfloat q
      | none => PyVal.vstr value

/-! ## Contention analysis (contention.py) -/

/-- One row of the contention dataset table: the columns that
calculate_contention_overlap and validate_contention_dataset read.
end is a Lean keyword, so the end timestamp is named end_. -/
structure CRow where
  dataset_id : String
  primary_nodes : Nat
  contention : String
  workload_id : String
  start : ℚ
  end_ : ℚ
deriving DecidableEq

/-- First-occurrence deduplication helper. -/
def uniqueAux {α : Type} [DecidableEq α] (seen : List α) : List α → List α
  | [] => []
  | x :: xs =>
    if x ∈ seen then uniqueAux seen xs else x :: uniqueAux (x :: seen) xs

/-- pandas Series.unique: the distinct values in first-appearance order. -/
def uniqueKeep {α : Type} [DecidableEq α] (l : List α) : List α := uniqueAux [] l

/-- The distinct dataset ids, in appearance order (the overlap table index). -/
def datasetsOf (rows : List CRow) : List String :=
  uniqueKeep (rows.map (fun r => r.dataset_id))

/-- The distinct primary_nodes values.  (pandas sorts pivot columns; nothing
proved here depends on the iteration order, so appearance order is kept.) -/
def nodesOf (rows : List CRow) : List Nat :=
  uniqueKeep (rows.map (fun r => r.primary_nodes))

/-- The distinct contention labels. -/
def contentionsOf (rows : List CRow) : List String :=
  uniqueKeep (rows.map (fun r => r.contention))

/-- The rows under one (primary_nodes, contention) pivot column group. -/
def rowsNC (rows : List CRow) (n : Nat) (c : String) : List CRow :=
  rows.filter (fun r => r.primary_nodes == n && r.contention == c)

/-- The rows of one (dataset_id, primary_nodes, contention) group: the (n, c)
column group restricted to the dataset_id index value. -/
def rowsDNC (rows : List CRow) (d : String) (n : Nat) (c : String) : List CRow :=
  (rowsNC rows n c).filter (fun r => r.dataset_id == d)

/-- The rows of one fully keyed pivot cell. -/
def rowsDNCW (rows : List CRow) (d : String) (n : Nat) (c : String)
    (w : String) : List CRow :=
  (rowsDNC rows d n c).filter (fun r => r.workload_id == w)

/-- The workload_id labels appearing under one (n, c) column group, i.e. the
sub-columns pivot_table keeps (an all-NaN column is dropped). -/
def widsNC (rows : List CRow) (n : Nat) (c : String) : List String :=
  uniqueKeep ((rowsNC rows n c).map (fun r => r.workload_id))

/-- A pivot_table cell: the mean of the contributing values, NaN (none) when
no row contributes. -/
def meanOpt (l : List ℚ) : Option ℚ :=
  match l with
  | [] => none
  | _ => some (l.sum / (l.length : ℚ))

/-- One pivot cell of the start/end table. -/
def cellVal (rows : List CRow) (d : String) (n : Nat) (c : String)
    (w : String) (f : CRow → ℚ) : Option ℚ :=
  meanOpt ((rowsDNCW rows d n c w).map f)

/-- NaN-skipping minimum combination (pandas min(axis=1)). -/
def optMin : Option ℚ → Option ℚ → Option ℚ
  | none, b => b
  | some a, none => some a
  | some a, some b => some (min a b)

/-- NaN-skipping maximum combination (pandas max(axis=1)). -/
def optMax : Option ℚ → Option ℚ → Option ℚ
  | none, b => b
  | some a, none => some a
  | some a, some b => some (max a b)

/-- pandas row-wise min over the listed cells, skipping NaN. -/
def minSkip (l : List (Option ℚ)) : Option ℚ := l.foldl optMin none

/-- pandas row-wise max over the listed cells, skipping NaN. -/
def maxSkip (l : List (Option ℚ)) : Option ℚ := l.foldl optMax none

/-- NaN-propagating subtraction of two cells. -/
def osub : Option ℚ → Option ℚ → Option ℚ
  | some a, some b => some (a - b)
  | _, _ => none

/-- Python max(0.0, x) as the clamp .apply(lambda x: max(0.0, x)) uses it:
every comparison against NaN is false, so max(0.0, nan) keeps 0.0. -/
def pymax0 : Option ℚ → ℚ
  | none => 0
  | some v => max 0 v

/-- pivoted_df['end', n, c].min(axis=1) at index d. -/
def endsMin (rows : List CRow) (d : String) (n : Nat) (c : String) : Option ℚ :=
  minSkip ((widsNC rows n c).map (fun w => cellVal rows d n c w (fun r => r.end_)))

/-- pivoted_df['end', n, c].max(axis=1) at index d. -/
def endsMax (rows : List CRow) (d : String) (n : Nat) (c : String) : Option ℚ :=
  maxSkip ((widsNC rows n c).map (fun w => cellVal rows d n c w (fun r => r.end_)))

/-- pivoted_df['start', n, c].min(axis=1) at index d. -/
def startsMin (rows : List CRow) (d : String) (n : Nat) (c : String) : Option ℚ :=
  minSkip ((widsNC rows n c).map (fun w => cellVal rows d n c w (fun r => r.start)))

/-- pivoted_df['start', n, c].max(axis=1) at index d. -/
def startsMax (rows : List CRow) (d : String) (n : Nat) (c : String) : Option ℚ :=
  maxSkip ((widsNC rows n c).map (fun w => cellVal rows d n c w (fun r => r.start)))

/-- One cell of the derived overlap table, in seconds. -/
structure OCell where
  overlapping : ℚ
  nonOverlapping : Option ℚ
  total : Option ℚ
deriving DecidableEq

/-- time=overlapping: (earliest end) minus (latest start), clamped at 0. -/
def cellOverlapping (rows : List CRow) (d : String) (n : Nat) (c : String) : ℚ :=
  pymax0 (osub (endsMin rows d n c) (startsMax rows d n c))

/-- time=total: (latest end) minus (earliest start). -/
def cellTotal (rows : List CRow) (d : String) (n : Nat) (c : String) : Option ℚ :=
  osub (endsMax rows d n c) (startsMin rows d n c)

/-- One populated (dataset_id, n, c) cell of the overlap table:
non-overlapping is total minus overlapping. -/
def mkOCell (rows : List CRow) (d : String) (n : Nat) (c : String) : OCell :=
  OCell.mk (cellOverlapping rows d n c)
    (osub (cellTotal rows d n c) (some (cellOverlapping rows d n c)))
    (cellTotal rows d n c)

/-- The (primary_nodes, contention) cells the computation loop visits: the
cross product of the observed level values. -/
def ncPairs (rows : List CRow) : List (Nat × String) :=
  (nodesOf rows).flatMap (fun n => (contentionsOf rows).map (fun c => (n, c)))

/-- The first loop cell whose column selection raises KeyError: a
(primary_nodes, contention) pair of observed values with no rows at all. -/
def missingNC (rows : List CRow) : Option (Nat × String) :=
  (ncPairs rows).find? (fun nc => (rowsNC rows nc.1 nc.2).isEmpty)

/-- The filled overlap table: one OCell per dataset_id and per visited
(primary_nodes, contention) pair. -/
def overlapTable (rows : List CRow) : List (String × Nat × String × OCell) :=
  (datasetsOf rows).flatMap (fun d =>
    (nodesOf rows).flatMap (fun n =>
      (contentionsOf rows).map (fun c => (d, n, c, mkOCell rows d n c))))

/-- contention.py calculate_contention_overlap.  The Python loop raises
IncompleteDatasetError (carrying the offending numnode and contention) out
of the whole computation as soon as one selection fails, so no partial
table survives; the error condition is therefore modelled up front. -/
def calculate_contention_overlap (rows : List CRow) :
    Except (Nat × String) (List (String × Nat × String × OCell)) :=
  match missingNC rows with
  | some nc => Except.error nc
  | none => Except.ok (overlapTable rows)

/-- The distinct, named validation failures of contention.py (ShortJobError,
JobOverlapError in its two uses, the propagated IncompleteDatasetError) plus
the pandas-level failures the code runs into on degenerate input:
missingRoleColumns is the KeyError the .loc selection of one workload role
raises when the label is absent from the pivot level (lines 129-130),
deltaShapeError the ValueError from building the deltatime frame out of
mismatched column blocks (lines 131-134), quietDeltaLength the ValueError
from assigning the length-1 delta array to a 0-row frame (line 143), and
missingNoisyColumns the KeyError from selecting noisy overlap columns that
do not exist (line 161). -/
inductive ValidationError where
  | shortJob
  | missingRoleColumns (w : String)
  | deltaShapeError
  | quietDeltaLength
  | rapidQuietStarts
  | incompleteDataset (n : Nat) (c : String)
  | missingNoisyColumns
  | insufficientOverlap
deriving DecidableEq

/-- The rows with contention quiet. -/
def quietRows (rows : List CRow) : List CRow :=
  rows.filter (fun r => r.contention == "quiet")

/-- The quiet start timestamps in sorted order (sort_values("start")). -/
def quietStartsSorted (rows : List CRow) : List ℚ :=
  List.insertionSort (fun a b => a ≤ b) ((quietRows rows).map (fun r => r.start))

/-- Differences between consecutive entries (the delta column; its leading
NaN takes part in no comparison). -/
def consecGaps : List ℚ → List ℚ
  | a :: b :: t => (b - a) :: consecGaps (b :: t)
  | _ => []

/-- The noisy overlap fraction overlapping_secs / total_secs of one
(dataset_id, primary_nodes) cell: NaN (none) when the total is NaN, and a
zero total gives inf/nan in pandas, which no threshold comparison matches,
so it is also none. -/
def noisyFrac (rows : List CRow) (d : String) (n : Nat) : Option ℚ :=
  match cellTotal rows d n "noisy" with
  | none => none
  | some t => if t = 0 then none else some (cellOverlapping rows d n "noisy" / t)

/-- The melted noisy_stats table: one row per (dataset_id, primary_nodes). -/
def noisyStats (rows : List CRow) : List (String × Nat × Option ℚ) :=
  (datasetsOf rows).flatMap (fun d =>
    (nodesOf rows).map (fun n => (d, n, noisyFrac rows d n)))

/-- A pandas Series strict comparison against a threshold: false on NaN. -/
def fracLt (f : Option ℚ) (x : ℚ) : Bool :=
  match f with
  | none => false
  | some q => decide (q < x)

/-- contention.py lines 183-184: the warning threshold actually used.  The
halfway formula applies only when the caller passes None explicitly; the
Python signature default is the constant 0.90. -/
def warnThreshUsed (min_overlap : ℚ) (min_overlap_warn : Option ℚ) : ℚ :=
  match min_overlap_warn with
  | none => 1 - (1 - min_overlap) / 2
  | some w => w

/-- The distinct (primary_nodes, contention) pairs among the rows of one
workload role: half the timestamps pivot columns the .loc selection of that
role keeps (each observed pair contributes a start and an end column, and
start/end are never null here). -/
def rolePairs (rows : List CRow) (w : String) : List (Nat × String) :=
  uniqueKeep ((rows.filter (fun r => r.workload_id == w)).map
    (fun r => (r.primary_nodes, r.contention)))

/-- The distinct (primary_nodes, contention) pairs over all rows: half the
entries of timestamps.columns.droplevel("workload_id").drop_duplicates(). -/
def allPairs (rows : List CRow) : List (Nat × String) :=
  uniqueKeep (rows.map (fun r => (r.primary_nodes, r.contention)))

/-- contention.py validate_contention_dataset, with the printed warnings
returned as the (dataset_id, primary_nodes) pairs whose noisy overlap
fraction is below the warning threshold.  The deltatime frame of lines
122-134 is never used afterwards, but building it can raise: the .loc
selection of the secondary (then primary) columns raises KeyError when no
row carries that workload_id (the label is then absent from the pivot
level); sec.values - pri.values raises ValueError when the two roles span
differently many (primary_nodes, contention) pairs (mismatched widths never
broadcast: widths are even, so never 1); and the DataFrame constructor
raises ValueError when the data width disagrees with the deduplicated
column index, i.e. when the secondary pairs do not already cover every
observed pair.  With no quiet rows at all, the delta-column assignment
(line 143) fails in pandas (a length-1 array against a 0-row frame):
quietDeltaLength.  With no noisy column anywhere, the .loc selection of
noisy overlaps raises KeyError: missingNoisyColumns.  Warnings are printed
before the insufficient-overlap failure is raised, but the Except result
keeps them only on success. -/
def validate_contention_dataset (rows : List CRow) (min_overlap : ℚ)
    (min_walltime : ℚ) (min_overlap_warn : Option ℚ) :
    Except ValidationError (List (String × Nat)) :=
  if (rows.map (fun r => r.end_ - r.start)).any (fun w => decide (w < min_walltime)) then
    Except.error ValidationError.shortJob
  else if (rows.filter (fun r => r.workload_id == "secondary")).isEmpty then
    Except.error (ValidationError.missingRoleColumns "secondary")
  else if (rows.filter (fun r => r.workload_id == "primary")).isEmpty then
    Except.error (ValidationError.missingRoleColumns "primary")
  else if (rolePairs rows "secondary").length ≠ (rolePairs rows "primary").length then
    Except.error ValidationError.deltaShapeError
  else if (rolePairs rows "secondary").length ≠ (allPairs rows).length then
    Except.error ValidationError.deltaShapeError
  else if (quietRows rows).isEmpty then
    Except.error ValidationError.quietDeltaLength
  else if (consecGaps (quietStartsSorted rows)).any (fun g => decide (g < min_walltime)) then
    Except.error ValidationError.rapidQuietStarts
  else
    match calculate_contention_overlap rows with
    | Except.error nc => Except.error (ValidationError.incompleteDataset nc.1 nc.2)
    | Except.ok _ =>
      if "noisy" ∈ contentionsOf rows then
        if (noisyStats rows).any (fun s => fracLt s.2.2 min_overlap) then
          Except.error ValidationError.insufficientOverlap
        else
          Except.ok
            (((noisyStats rows).filter
                (fun s => fracLt s.2.2 (warnThreshUsed min_overlap min_overlap_warn))).map
              (fun s => (s.1, s.2.1)))
      else Except.error ValidationError.missingNoisyColumns

/-- validate_contention_dataset at its Python signature defaults beyond the
first argument: min_overlap=0.80, min_walltime=45, min_overlap_warn=0.90.
A caller that does not supply the warning threshold gets the constant 0.90,
not the halfway formula. -/
def validate_defaults (rows : List CRow) :
    Except ValidationError (List (String × Nat)) :=
  validate_contention_dataset rows (80 / 100) 45 (some (90 / 100))

/-- validate_contention_dataset with a caller-chosen min_overlap and every
later argument left at its Python default. -/
def validate_default_warn (rows : List CRow) (min_overlap : ℚ) :
    Except ValidationError (List (String × Nat)) :=
  validate_contention_dataset rows min_overlap 45 (some (90 / 100))

/-! ## IOR output parser (parse.py IorOutput)

The line-oriented state machine.  The bound handler self._parser is the
PState field; the dict self becomes named optional fields (a key is absent
until first written); per-operation records are insertion-ordered key-value
lists with Python dict update semantics.  datetime.strptime on the C-locale
timestamp format is an external collaborator, passed in as
stp : List Char → Option Int (none models its ValueError); the timestamps
of this format are whole seconds, so .timestamp() is the integer cast. -/

/-- A Python dict with string keys, in insertion order. -/
abbrev Dict := List (List Char × PyVal)

/-- d[k] = v: overwrite in place when k is present, else append. -/
def dset (d : Dict) (k : List Char) (v : PyVal) : Dict :=
  match d with
  | [] => [(k, v)]
  | (k2, v2) :: t => if k2 = k then (k2, v) :: t else (k2, v2) :: dset t k v

/-- d.get(k). -/
def dget (d : Dict) (k : List Char) : Option PyVal :=
  match d with
  | [] => none
  | (k2, v2) :: t => if k2 = k then some v2 else dget t k

/-- k in d. -/
def dmem (d : Dict) (k : List Char) : Bool :=
  match d with
  | [] => false
  | (k2, _) :: t => k2 == k || dmem t k

/-- d.update(e): write e's pairs into d in order. -/
def dupdate (d e : Dict) : Dict := e.foldl (fun acc kv => dset acc kv.1 kv.2) d

/-- dict(list(zip(...))): build from a pair list, later keys overwriting. -/
def dFromList (ps : List (List Char × PyVal)) : Dict := dupdate [] ps

/-- The parser states (one per handler method). -/
inductive PState where
  | findRunBegin
  | parseRunMetadata
  | findResultsBegin
  | findResultsHeader
  | parseResult
  | findSummary
  | parseSummary
deriving DecidableEq

/-- The mutable state of an IorOutput parse. -/
structure IorState where
  pstate : PState
  this_record : Option Dict
  result_columns : Option (List (List Char))
  summary_columns : Option (List (List Char))
  header : Option Dict
  results : Option (List Dict)
  summaries : Option (List Dict)
  stonewall_pairs : Option (List (List (Int × Int)))
  max_read_mibs : Option PyVal
  max_write_mibs : Option PyVal
deriving DecidableEq

/-- The state IorOutput.__init__ starts from. -/
def initState : IorState :=
  IorState.mk PState.findRunBegin none none none none none none none none none

/-- rank in mapping (the repeat-rank test). -/
def swMem (m : List (Int × Int)) (k : Int) : Bool :=
  match m with
  | [] => false
  | (k2, _) :: t => k2 == k || swMem t k

/-- mapping[k] = v with dict overwrite semantics. -/
def swSet (m : List (Int × Int)) (k v : Int) : List (Int × Int) :=
  match m with
  | [] => [(k, v)]
  | (k2, v2) :: t => if k2 = k then (k2, v) :: t else (k2, v2) :: swSet t k v

/-- Replace the last mapping of the sequence. -/
def setLast (sw : List (List (Int × Int))) (m : List (Int × Int)) :
    List (List (Int × Int)) :=
  match sw with
  | [] => [m]
  | [_] => [m]
  | x :: t => x :: setLast t m

/-- One per-rank stonewall report into self['stonewall_pairs']: when the
rank repeats in the last mapping a new mapping is begun, then
mapping[rank] = value. -/
def swStep (sw : List (List (Int × Int))) (k v : Int) :
    List (List (Int × Int)) :=
  if swMem (sw.getLastD []) k then sw ++ [[(k, v)]]
  else setLast sw (swSet (sw.getLastD []) k v)

/-- int() raising ValueError. -/
def pyIntE (s : List Char) : Except PyErr Int :=
  match pyIntParse s with
  | some n => Except.ok n
  | none => Except.error PyErr.valueError

/-- float() raising ValueError. -/
def pyFloatE (s : List Char) : Except PyErr ℚ :=
  match pyFloatParse s with
  | some q => Except.ok q
  | none => Except.error PyErr.valueError

/-- Python str.endswith. -/
def pyEnds (suffix s : List Char) : Bool :=
  pyStarts suffix.reverse s.reverse

/-- BenchmarkOutput.humansize2bytes: a "4 MiB"-style quantity in bytes.
Unpacking into other than two tokens, a bad float and an unknown unit each
raise ValueError. -/
def humansize2bytes (humansize : List Char) : Except PyErr ℚ :=
  match pySplitWs humansize with
  | [x, u] =>
    match pyFloatE x with
    | Except.error e => Except.error e
    | Except.ok xsize =>
    let unit := if pyEnds "/s".toList u then u.take (u.length - 2) else u
    if unit = "bytes".toList then Except.ok xsize
    else if unit = "KiB".toList then Except.ok (xsize * 1024)
    else if unit = "MiB".toList then Except.ok (xsize * 2 ^ 20)
    else if unit = "GiB".toList then Except.ok (xsize * 2 ^ 30)
    else if unit = "TiB".toList then Except.ok (xsize * 2 ^ 40)
    else if unit = "PiB".toList then Except.ok (xsize * 2 ^ 50)
    else if unit = "EiB".toList then Except.ok (xsize * 2 ^ 60)
    else Except.error PyErr.valueError
  | _ => Except.error PyErr.valueError

/-- Lexicographic code-point order on strings (Python str <). -/
def lexLt : List Char → List Char → Bool
  | [], [] => false
  | [], _ :: _ => true
  | _ :: _, [] => false
  | a :: as, b :: bs => if a < b then true else if a = b then lexLt as bs else false

/-- Python < on parsed values: numbers numerically, strings
lexicographically, anything else raises TypeError. -/
def pyLt : PyVal → PyVal → Except PyErr Bool
  | PyVal.vint a, PyVal.vint b => Except.ok (decide (a < b))
  | PyVal.vint a, PyVal.vfloat b => Except.ok (decide ((a : ℚ) < b))
  | PyVal.vfloat a, PyVal.vint b => Except.ok (decide (a < (b : ℚ)))
  | PyVal.vfloat a, PyVal.vfloat b => Except.ok (decide (a < b))
  | PyVal.vstr a, PyVal.vstr b => Except.ok (lexLt a b)
  | _, _ => Except.error PyErr.typeError

/-- Outcome of dispatching one line: the new state together with how many
extra lines the handler consumed via next(), the StopIteration that
__init__ swallows, or an uncaught exception. -/
inductive HRes where
  | ok (st : IorState) (skip : Nat)
  | stop (st : IorState)
  | err (e : PyErr)
deriving DecidableEq

/-- IorOutput.parse_anywhere: the per-rank stonewall report and the run-end
marker are recognized in any state; the result is some st' when the line
was handled.  int() on a malformed per-rank line and strptime on a
malformed Finished line raise. -/
def parse_anywhere (stp : List Char → Option Int) (st : IorState)
    (line : List Char) : Except PyErr (Option IorState) :=
  if pyContains "stonewalling pairs accessed:".toList line then
    let sw := st.stonewall_pairs.getD [[]]
    let tokens := pySplitOn ':' line
    match pyIntE (tokens.headD []) with
    | Except.error e => Except.error e
    | Except.ok key =>
      match pyIntE (tokens.getLastD []) with
      | Except.error e => Except.error e
      | Except.ok val =>
        Except.ok (some { st with stonewall_pairs := some (swStep sw key val) })
  else if pyStarts "Finished            :".toList line then
    match stp (pyStrip (pyAfterFirst ':' line)) with
    | none => Except.error PyErr.valueError
    | some t =>
      Except.ok (some { st with
        header := some (dset (st.header.getD []) "end".toList (PyVal.vint t)),
        pstate := PState.findRunBegin })
  else Except.ok none

/-- IorOutput.find_run_begin: the run marker resets the header and enters
metadata parsing; any other line is discarded. -/
def find_run_begin (st : IorState) (line : List Char) : IorState :=
  if pyStarts "IOR".toList line &&
      pyContains "MPI Coordinated Test of Parallel I/O".toList line then
    { st with header := some [], pstate := PState.parseRunMetadata }
  else st

/-- IorOutput.parse_run_metadata: the labelled header fields; the
aggregate-filesize line is the trigger into FindResultsBegin.  The dict
self['header'] is created up front when absent. -/
def parse_run_metadata (stp : List Char → Option Int) (st : IorState)
    (line : List Char) : Except PyErr IorState :=
  let st := if st.header.isNone then { st with header := some [] } else st
  let hdr := st.header.getD []
  let lastc := (pySplitOn ':' line).getLastD []
  if pyStarts "nodes               :".toList line then
    match pyIntE (pyStrip lastc) with
    | Except.error e => Except.error e
    | Except.ok v =>
      Except.ok { st with header := some (dset hdr "nodes".toList (PyVal.vint v)) }
  else if pyStarts "tasks               :".toList line then
    match pyIntE (pyStrip lastc) with
    | Except.error e => Except.error e
    | Except.ok v =>
      Except.ok { st with header := some (dset hdr "nproc".toList (PyVal.vint v)) }
  else if pyStarts "clients per node    :".toList line then
    match pyIntE (pyStrip lastc) with
    | Except.error e => Except.error e
    | Except.ok v =>
      Except.ok { st with header := some (dset hdr "ppn".toList (PyVal.vint v)) }
  else if pyStarts "xfersize            :".toList line then
    match humansize2bytes lastc with
    | Except.error e => Except.error e
    | Except.ok v =>
      Except.ok { st with
        header := some (dset hdr "xfersize".toList (PyVal.vfloat v)) }
  else if pyStarts "ordering in a file  :".toList line then
    Except.ok { st with
      header := some (dset hdr "ordering".toList (PyVal.vstr (pyStrip lastc))) }
  else if pyStarts "aggregate filesize".toList (pyStrip line) then
    match humansize2bytes lastc with
    | Except.error e => Except.error e
    | Except.ok v =>
      Except.ok { st with
        header := some (dset hdr "aggsize_bytes".toList (PyVal.vfloat v)),
        pstate := PState.findResultsBegin }
  else if pyStarts "StartTime           :".toList line then
    match stp (pyStrip (pyAfterFirst ':' line)) with
    | none => Except.error PyErr.valueError
    | some t =>
      Except.ok { st with
        header := some (dset hdr "start".toList (PyVal.vfloat (t : ℚ))) }
  else Except.ok st

/-- IorOutput.find_results_begin. -/
def find_results_begin (st : IorState) (line : List Char) : IorState :=
  if pyStrip line = "Results:".toList then
    { st with pstate := PState.findResultsHeader }
  else st

/-- IorOutput.find_results_header: the access header line captures the
lower-cased column names and one separator line is consumed unconditionally
via next(); a StopIteration there ends the whole parse. -/
def find_results_header (st : IorState) (line : List Char)
    (rest : List (List Char)) : HRes :=
  if pyStrip line = [] then HRes.ok st 0
  else if pyStarts "WARNING: The file".toList line then HRes.ok st 0
  else if pyStarts "Using Time Stamp".toList line then HRes.ok st 0
  else if pyStarts "access".toList (pyStrip line) then
    let st2 := { st with
      result_columns := some ((pySplitWs line).map pyLower),
      pstate := PState.parseResult }
    match rest with
    | [] => HRes.stop st2
    | _ :: _ => HRes.ok st2 1
  else HRes.ok st 0

/-- The max_read_mibs/max_write_mibs update of parse_result: when the
record's access is read or write and a bw(mib/s) field exists, the running
maximum is replaced when absent or smaller (Python < raises TypeError on
incomparable values). -/
def maxUpd (st : IorState) (rec : Dict) : Except PyErr IorState :=
  if (dget rec "access".toList = some (PyVal.vstr "read".toList) ∨
      dget rec "access".toList = some (PyVal.vstr "write".toList)) ∧
      dmem rec "bw(mib/s)".toList = true then
    match dget rec "bw(mib/s)".toList with
    | none => Except.ok st
    | some bw =>
      if dget rec "access".toList = some (PyVal.vstr "read".toList) then
        match st.max_read_mibs with
        | none => Except.ok { st with max_read_mibs := some bw }
        | some cur =>
          match pyLt cur bw with
          | Except.error e => Except.error e
          | Except.ok lt =>
            if lt then Except.ok { st with max_read_mibs := some bw }
            else Except.ok st
      else
        match st.max_write_mibs with
        | none => Except.ok { st with max_write_mibs := some bw }
        | some cur =>
          match pyLt cur bw with
          | Except.error e => Except.error e
          | Except.ok lt =>
            if lt then Except.ok { st with max_write_mibs := some bw }
            else Except.ok st
  else Except.ok st

/-- IorOutput.parse_result: a result row extends the in-progress record
with the zipped column values and commits it; Commencing, the stonewalling
statistics line and the aggregate-bytes warning only extend it; Max leaves
for FindSummary. -/
def parse_result (stp : List Char → Option Int) (st : IorState)
    (line : List Char) : Except PyErr IorState :=
  if pyStarts "Max".toList line then
    Except.ok { st with pstate := PState.findSummary }
  else if pyStarts "read".toList line || pyStarts "write".toList line ||
      pyStarts "remove".toList line then
    match st.result_columns with
    | none => Except.error PyErr.typeError
    | some cols =>
      let values := (pySplitWs line).map coerce_value
      let rec0 :=
        match st.this_record with
        | none => dFromList (List.zip cols values)
        | some r => dupdate r (List.zip cols values)
      match maxUpd st rec0 with
      | Except.error e => Except.error e
      | Except.ok st2 =>
        Except.ok { st2 with
          results := some (st2.results.getD [] ++ [rec0]),
          this_record := none }
  else if pyStarts "Commencing".toList line then
    match stp (pyStrip (pyAfterFirst ':' line)) with
    | none => Except.error PyErr.valueError
    | some t =>
      match st.this_record with
      | none =>
        Except.ok { st with
          this_record := some [("timestamp".toList, PyVal.vfloat (t : ℚ))] }
      | some r =>
        match pySplitWs line with
        | _ :: tok1 :: _ =>
          match dget r "access".toList with
          | some (PyVal.vstr s) =>
            let expected := pyLower s
            if expected ≠ [] ∧ expected ≠ pyLower tok1 then
              Except.ok st
            else
              Except.ok { st with
                this_record := some (dset r "timestamp".toList
                  (PyVal.vfloat (t : ℚ))) }
          | _ => Except.error PyErr.attributeError
        | _ => Except.error PyErr.indexError
  else if pyStarts "stonewalling pairs accessed ".toList line then
    let args := pySplitWs line
    if h4 : 4 < args.length then
      match pyIntE (args.get ⟨4, h4⟩) with
      | Except.error e => Except.error e
      | Except.ok minx =>
        if h6 : 6 < args.length then
          match pyIntE (args.get ⟨6, h6⟩) with
          | Except.error e => Except.error e
          | Except.ok maxx =>
            match pyFloatE (pyRstrip 's' (args.getLastD [])) with
            | Except.error e => Except.error e
            | Except.ok tsecs =>
              Except.ok { st with
                this_record := some (dupdate (st.this_record.getD [])
                  [("stonewall_min_xfers".toList, PyVal.vint minx),
                   ("stonewall_max_xfers".toList, PyVal.vint maxx),
                   ("stonewall_time_secs".toList, PyVal.vfloat tsecs)]) }
        else Except.error PyErr.indexError
    else Except.error PyErr.indexError
  else if pyStarts "WARNING: Using actual aggregate bytes moved".toList line then
    match pyIntE (pyRstrip '.' ((pySplitWs line).getLastD [])) with
    | Except.error e => Except.error e
    | Except.ok v =>
      Except.ok { st with
        this_record := some (dupdate (st.this_record.getD [])
          [("stonewall_bytes_moved".toList, PyVal.vint v)]) }
  else Except.ok st

/-- IorOutput.find_summary: the summary marker consumes the next line via
next() as the summary column header. -/
def find_summary (st : IorState) (line : List Char)
    (rest : List (List Char)) : HRes :=
  if pyStrip line = "Summary of all tests:".toList then
    match rest with
    | [] => HRes.stop st
    | l2 :: _ =>
      HRes.ok { st with
        summary_columns := some ((pySplitWs l2).map pyLower),
        pstate := PState.parseSummary } 1
  else HRes.ok st 0

/-- IorOutput.parse_summary. -/
def parse_summary (st : IorState) (line : List Char) : Except PyErr IorState :=
  if pyStarts "write".toList line || pyStarts "read".toList line then
    match st.summary_columns with
    | none => Except.error PyErr.typeError
    | some cols =>
      let record := dFromList (List.zip cols ((pySplitWs line).map coerce_value))
      Except.ok { st with summaries := some (st.summaries.getD [] ++ [record]) }
  else Except.ok st

/-- BenchmarkOutput.parse_line: the anywhere rules run before the handler
the current state binds. -/
def parse_line (stp : List Char → Option Int) (st : IorState)
    (line : List Char) (rest : List (List Char)) : HRes :=
  match parse_anywhere stp st line with
  | Except.error e => HRes.err e
  | Except.ok (some st2) => HRes.ok st2 0
  | Except.ok none =>
    match st.pstate with
    | PState.findRunBegin => HRes.ok (find_run_begin st line) 0
    | PState.parseRunMetadata =>
      match parse_run_metadata stp st line with
      | Except.ok st2 => HRes.ok st2 0
      | Except.error e => HRes.err e
    | PState.findResultsBegin => HRes.ok (find_results_begin st line) 0
    | PState.findResultsHeader => find_results_header st line rest
    | PState.parseResult =>
      match parse_result stp st line with
      | Except.ok st2 => HRes.ok st2 0
      | Except.error e => HRes.err e
    | PState.findSummary => find_summary st line rest
    | PState.parseSummary =>
      match parse_summary st line with
      | Except.ok st2 => HRes.ok st2 0
      | Except.error e => HRes.err e

/-- BenchmarkOutput.load_output: feed lines until the iterator is
exhausted, a falsy (empty) line ends the while loop, a handler's inner
next() hits StopIteration (stop, state kept), or an exception escapes. -/
def load_output (stp : List Char → Option Int) (st : IorState) :
    List (List Char) → Except PyErr IorState
  | [] => Except.ok st
  | line :: rest =>
    if line = [] then Except.ok st
    else
      match parse_line stp st line rest with
      | HRes.err e => Except.error e
      | HRes.stop st2 => Except.ok st2
      | HRes.ok st2 0 => load_output stp st2 rest
      | HRes.ok st2 (_ + 1) =>
        match rest with
        | [] => Except.ok st2
        | _ :: rest2 => load_output stp st2 rest2

/-- IorOutput construction: load_output from the initial state with
StopIteration swallowed; then, when normalize_results is set, every
operation record is updated with self['header'] — the single header dict as
it stands after the whole stream, i.e. the last run's. -/
def ior_run (stp : List Char → Option Int) (normalize_results : Bool)
    (lines : List (List Char)) : Except PyErr IorState :=
  match load_output stp initState lines with
  | Except.error e => Except.error e
  | Except.ok st =>
    if normalize_results then
      match st.results with
      | none => Except.ok st
      | some [] => Except.ok st
      | some recs =>
        match st.header with
        | some h =>
          Except.ok { st with results := some (recs.map (fun r => dupdate r h)) }
        | none => Except.error PyErr.keyError
    else Except.ok st

/-- A strptime stand-in mapping every timestamp text to epoch second 0. -/
def stpZero : List Char → Option Int := fun _ => some 0

/-- The results list of a finished parse, for concrete statements. -/
def resultsOf (r : Except PyErr IorState) : Option (List Dict) :=
  match r with
  | Except.ok st => st.results
  | Except.error _ => none

/-- The stonewall_pairs entry of a finished parse. -/
def stonewallOf (r : Except PyErr IorState) :
    Option (Option (List (List (Int × Int)))) :=
  match r with
  | Except.ok st => some st.stonewall_pairs
  | Except.error _ => none

/-! ## Concrete example tables -/

/-- Primary window [0,100], secondary window [50,150]. -/
def exOverlapA : List CRow :=
  [CRow.mk "A" 1 "noisy" "primary" 0 100,
   CRow.mk "A" 1 "noisy" "secondary" 50 150]

/-- Primary window [0,10], secondary window [20,30] (disjoint). -/
def exOverlapB : List CRow :=
  [CRow.mk "A" 1 "noisy" "primary" 0 10,
   CRow.mk "A" 1 "noisy" "secondary" 20 30]

/-- Dataset A has both roles for (1, quiet); dataset B only the primary. -/
def exIncomplete : List CRow :=
  [CRow.mk "A" 1 "quiet" "primary" 0 100,
   CRow.mk "A" 1 "quiet" "secondary" 0 100,
   CRow.mk "B" 1 "quiet" "primary" 0 100]

/-- A noisy pair overlapping for 91 of 100 seconds plus a well-separated
quiet pair (all walltimes at least 45 s, quiet starts 200 s apart). -/
def exWarn : List CRow :=
  [CRow.mk "A" 1 "noisy" "primary" 0 100,
   CRow.mk "A" 1 "noisy" "secondary" 9 100,
   CRow.mk "A" 1 "quiet" "primary" 200 300,
   CRow.mk "A" 1 "quiet" "secondary" 400 500]

/-- Two quiet jobs starting 5 seconds apart, each running 100 seconds —
both primary, so the secondary role selection has nothing to select. -/
def exRapid : List CRow :=
  [CRow.mk "A" 1 "quiet" "primary" 0 100,
   CRow.mk "B" 1 "quiet" "primary" 5 105]

/-- A quiet primary/secondary pair whose two jobs start 5 seconds apart,
each running 100 seconds: the deltatime construction succeeds here. -/
def exRapidBoth : List CRow :=
  [CRow.mk "A" 1 "quiet" "primary" 0 100,
   CRow.mk "A" 1 "quiet" "secondary" 5 105]

/-- Build a line list from string literals. -/
def lns (l : List String) : List (List Char) := l.map String.toList

/-- A stream that reaches ParseResult and then sees a second Commencing
line while the in-progress record has no access field. -/
def exCrash : List (List Char) := lns
  ["IOR-3.3.0: MPI Coordinated Test of Parallel I/O",
   "        aggregate filesize : 4 bytes",
   "Results:",
   "access bw(MiB/s)",
   "---------",
   "Commencing write: Tue Jul 20 12:59:31 2021",
   "Commencing read: Tue Jul 20 12:59:40 2021"]

/-- Two concatenated runs: the first declares nodes=4 and one write row,
the second declares nodes=8 and one write row. -/
def exTwoRuns : List (List Char) := lns
  ["IOR-3.3.0: MPI Coordinated Test of Parallel I/O",
   "nodes               : 4",
   "        aggregate filesize : 4 bytes",
   "Results:",
   "access bw(MiB/s)",
   "---------",
   "write 100",
   "Finished            : Tue Jul 20 13:00:00 2021",
   "IOR-3.3.0: MPI Coordinated Test of Parallel I/O",
   "nodes               : 8",
   "        aggregate filesize : 4 bytes",
   "Results:",
   "access bw(MiB/s)",
   "---------",
   "write 200"]

/-- The first run of exTwoRuns alone (its first eight lines). -/
def exOneRun : List (List Char) := exTwoRuns.take 8

/-- A run whose results header names three columns but whose one result row
has only two tokens. -/
def exShortRow : List (List Char) := lns
  ["IOR-3.3.0: MPI Coordinated Test of Parallel I/O",
   "        aggregate filesize : 4 bytes",
   "Results:",
   "access bw(MiB/s) iops",
   "---------",
   "read 100"]

/-- A run where a per-rank stonewall report sits exactly in the
post-header separator slot that find_results_header consumes blindly. -/
def exSwallowed : List (List Char) := lns
  ["IOR-3.3.0: MPI Coordinated Test of Parallel I/O",
   "        aggregate filesize : 4 bytes",
   "Results:",
   "access bw(MiB/s)",
   "0: stonewalling pairs accessed: 5"]

/-- The tokenized results-header columns of the example runs. -/
def cCols : List (List Char) := ["access".toList, "bw(mib/s)".toList]

/-- Run 1's committed operation record. -/
def cRec1 : Dict :=
  [("access".toList, PyVal.vstr "write".toList),
   ("bw(mib/s)".toList, PyVal.vint 100)]

/-- Run 2's committed operation record. -/
def cRec2 : Dict :=
  [("access".toList, PyVal.vstr "write".toList),
   ("bw(mib/s)".toList, PyVal.vint 200)]

/-- Run 1's header after its Finished line (under stpZero). -/
def cHdr1 : Dict :=
  [("nodes".toList, PyVal.vint 4), ("aggsize_bytes".toList, PyVal.vfloat 4),
   ("end".toList, PyVal.vint 0)]

/-- Run 2's header (the stream ends before a second Finished line). -/
def cHdr2 : Dict :=
  [("nodes".toList, PyVal.vint 8), ("aggsize_bytes".toList, PyVal.vfloat 4)]

/-- The state after run 1's metadata and Results marker. -/
def stA : IorState :=
  IorState.mk PState.findResultsHeader none none none
    (some [("nodes".toList, PyVal.vint 4),
           ("aggsize_bytes".toList, PyVal.vfloat 4)])
    none none none none none

/-- The state after all of run 1 (its Finished line included). -/
def stMid : IorState :=
  IorState.mk PState.findRunBegin none (some cCols) none (some cHdr1)
    (some [cRec1]) none none none (some (PyVal.vint 100))

/-- The state after run 2's metadata and Results marker. -/
def stB : IorState :=
  IorState.mk PState.findResultsHeader none (some cCols) none (some cHdr2)
    (some [cRec1]) none none none (some (PyVal.vint 100))

/-- The final state of the two-run stream. -/
def stTwo : IorState :=
  IorState.mk PState.parseResult none (some cCols) none (some cHdr2)
    (some [cRec1, cRec2]) none none none (some (PyVal.vint 200))

/-- The result_columns of a finished parse. -/
def columnsOf (r : Except PyErr IorState) : Option (List (List Char)) :=
  match r with
  | Except.ok st => st.result_columns
  | Except.error _ => none

/-- A minimal synthetic single-run output: the run marker, the
aggregate-filesize trigger, the results marker, a results-header line, the
separator, then the result rows. -/
def runScaffold (colsLine sep : List Char)
    (resultLines : List (List Char)) : List (List Char) :=
  "IOR-3.3.0: MPI Coordinated Test of Parallel I/O".toList ::
    "        aggregate filesize : 4 bytes".toList ::
    "Results:".toList :: colsLine :: sep :: resultLines

/-- The parser state after the three concrete scaffold lines. -/
def scaffoldState : IorState :=
  IorState.mk PState.findResultsHeader none none none
    (some [("aggsize_bytes".toList, PyVal.vfloat 4)]) none none none none none

/-- The operation record a result row with the given tokens produces under
the given column names: the zipped, coerced pairs. -/
def recOf (cols : List (List Char)) (row : List (List Char)) : Dict :=
  dFromList (List.zip cols (row.map coerce_value))

/-! ## Theorems -/

/-! ### List helper lemmas -/

theorem mem_uniqueAux {α : Type} [DecidableEq α] (seen : List α) (l : List α)
    (y : α) : y ∈ uniqueAux seen l ↔ y ∈ l ∧ y ∉ seen := by
  induction l generalizing seen with
  | nil => simp [uniqueAux]
  | cons x xs ih =>
    by_cases hx : x ∈ seen
    · rw [uniqueAux, if_pos hx, ih]
      constructor
      · rintro ⟨h1, h2⟩
        exact ⟨List.mem_cons_of_mem _ h1, h2⟩
      · rintro ⟨h1, h2⟩
        rcases List.mem_cons.mp h1 with rfl | h1
        · exact absurd hx h2
        · exact ⟨h1, h2⟩
    · rw [uniqueAux, if_neg hx, List.mem_cons, ih]
      constructor
      · rintro (rfl | ⟨h1, h2⟩)
        · exact ⟨List.mem_cons_self _ _, hx⟩
        · exact ⟨List.mem_cons_of_mem _ h1,
            fun hc => h2 (List.mem_cons_of_mem _ hc)⟩
      · rintro ⟨h1, h2⟩
        by_cases hyx : y = x
        · exact Or.inl hyx
        · rcases List.mem_cons.mp h1 with rfl | h1
          · exact absurd rfl hyx
          · refine Or.inr ⟨h1, fun hc => ?_⟩
            rcases List.mem_cons.mp hc with h | h
            · exact hyx h
            · exact h2 h

theorem mem_uniqueKeep {α : Type} [DecidableEq α] (l : List α) (y : α) :
    y ∈ uniqueKeep l ↔ y ∈ l := by
  rw [uniqueKeep, mem_uniqueAux]
  simp

theorem nodup_uniqueAux {α : Type} [DecidableEq α] (seen : List α)
    (l : List α) : (uniqueAux seen l).Nodup := by
  induction l generalizing seen with
  | nil => simp [uniqueAux]
  | cons x xs ih =>
    by_cases hx : x ∈ seen
    · simpa [uniqueAux, if_pos hx] using ih seen
    · rw [uniqueAux, if_neg hx]
      refine List.nodup_cons.mpr ⟨fun hc => ?_, ih (x :: seen)⟩
      exact ((mem_uniqueAux _ _ _).mp hc).2 (List.mem_cons_self x seen)

theorem nodup_uniqueKeep {α : Type} [DecidableEq α] (l : List α) :
    (uniqueKeep l).Nodup := nodup_uniqueAux [] l

theorem list_of_length_two {α : Type} {l : List α} (h : l.length = 2) :
    ∃ a b, l = [a, b] := by
  match l, h with
  | [a, b], _ => exact ⟨a, b, rfl⟩

theorem nodup_two_valued {α : Type} {l : List α} {a b : α} (hn : l.Nodup)
    (hv : ∀ x ∈ l, x = a ∨ x = b) (ha : a ∈ l) (hb : b ∈ l) (hab : a ≠ b) :
    l = [a, b] ∨ l = [b, a] := by
  match l, hn, hv, ha, hb with
  | [], _, _, ha, _ => exact absurd ha (List.not_mem_nil a)
  | [x], _, hv, ha, hb =>
    rw [List.mem_singleton] at ha hb
    exact absurd (ha.trans hb.symm) hab
  | [x, y], hn, hv, ha, hb =>
    have hxy : x ≠ y := by
      intro h
      exact (List.nodup_cons.mp hn).1 (by rw [h]; exact List.mem_cons_self _ _)
    rcases hv x (by simp) with hxa | hxb
    · rcases hv y (by simp) with hya | hyb
      · exact absurd (hxa.trans hya.symm) hxy
      · left
        rw [hxa, hyb]
    · rcases hv y (by simp) with hya | hyb
      · right
        rw [hxb, hya]
      · exact absurd (hxb.trans hyb.symm) hxy
  | x :: y :: z :: t, hn, hv, ha, hb =>
    exfalso
    have hxy : x ≠ y := by
      intro h
      exact (List.nodup_cons.mp hn).1 (by rw [h]; exact List.mem_cons_self _ _)
    have hxz : x ≠ z := by
      intro h
      exact (List.nodup_cons.mp hn).1
        (by rw [h]; exact List.mem_cons_of_mem _ (List.mem_cons_self _ _))
    have hyz : y ≠ z := by
      intro h
      exact (List.nodup_cons.mp (List.nodup_cons.mp hn).2).1
        (by rw [h]; exact List.mem_cons_self _ _)
    rcases hv x (by simp) with hxa | hxb
    · rcases hv y (by simp) with hya | hyb
      · exact hxy (hxa.trans hya.symm)
      · rcases hv z (by simp) with hza | hzb
        · exact hxz (hxa.trans hza.symm)
        · exact hyz (hyb.trans hzb.symm)
    · rcases hv y (by simp) with hya | hyb
      · rcases hv z (by simp) with hza | hzb
        · exact hyz (hya.trans hza.symm)
        · exact hxz (hxb.trans hzb.symm)
      · exact hxy (hxb.trans hyb.symm)

/-! ### Overlap table basics -/

theorem pymax0_nonneg (o : Option ℚ) : 0 ≤ pymax0 o := by
  cases o with
  | none => exact le_refl 0
  | some v => exact le_max_left 0 v

theorem mem_overlapTable {rows : List CRow} {x : String × Nat × String × OCell} :
    x ∈ overlapTable rows ↔
      ∃ d ∈ datasetsOf rows, ∃ n ∈ nodesOf rows, ∃ c ∈ contentionsOf rows,
        x = (d, n, c, mkOCell rows d n c) := by
  simp only [overlapTable, List.mem_flatMap, List.mem_map]
  constructor
  · rintro ⟨d, hd, n, hn, c, hc, rfl⟩
    exact ⟨d, hd, n, hn, c, hc, rfl⟩
  · rintro ⟨d, hd, n, hn, c, hc, rfl⟩
    exact ⟨d, hd, n, hn, c, hc, rfl⟩

theorem calculate_ok_iff {rows : List CRow}
    {t : List (String × Nat × String × OCell)}
    (h : calculate_contention_overlap rows = Except.ok t) :
    t = overlapTable rows ∧ missingNC rows = none := by
  unfold calculate_contention_overlap at h
  cases hm : missingNC rows with
  | none => rw [hm] at h; exact ⟨(Except.ok.inj h).symm, rfl⟩
  | some nc => rw [hm] at h; cases h

/-- C9: every populated cell of a computed overlap table satisfies
total = overlapping + non-overlapping, and overlapping is clamped to be
nonnegative. -/
theorem overlap_invariant_c9 (rows : List CRow)
    (t : List (String × Nat × String × OCell))
    (hok : calculate_contention_overlap rows = Except.ok t)
    (d : String) (n : Nat) (c : String) (cell : OCell)
    (hmem : (d, n, c, cell) ∈ t)
    (tt nn : ℚ) (htot : cell.total = some tt)
    (hnon : cell.nonOverlapping = some nn) :
    tt = cell.overlapping + nn ∧ 0 ≤ cell.overlapping := by
  obtain ⟨ht, -⟩ := calculate_ok_iff hok
  subst ht
  obtain ⟨d2, -, n2, -, c2, -, heq⟩ := mem_overlapTable.mp hmem
  obtain ⟨rfl, rfl, rfl, rfl⟩ :
      d = d2 ∧ n = n2 ∧ c = c2 ∧ cell = mkOCell rows d2 n2 c2 := by
    refine ⟨congrArg (fun y => y.1) heq, ?_, ?_, ?_⟩
    · exact congrArg (fun y => y.2.1) heq
    · exact congrArg (fun y => y.2.2.1) heq
    · exact congrArg (fun y => y.2.2.2) heq
  refine ⟨?_, pymax0_nonneg _⟩
  have htc : cellTotal rows d n c = some tt := htot
  have : osub (cellTotal rows d n c) (some (cellOverlapping rows d n c)) = some nn := hnon
  rw [htc] at this
  simp only [osub] at this
  have hnn : tt - cellOverlapping rows d n c = nn := Option.some.inj this
  have : (mkOCell rows d n c).overlapping = cellOverlapping rows d n c := rfl
  rw [this]
  linarith

/-- C9 witness: the invariant at the concrete cell of exOverlapA. -/
theorem overlap_invariant_c9_witness :
    (150 : ℚ) = (mkOCell exOverlapA "A" 1 "noisy").overlapping + 100 ∧
      0 ≤ (mkOCell exOverlapA "A" 1 "noisy").overlapping :=
  overlap_invariant_c9 exOverlapA (overlapTable exOverlapA)
    (by with_unfolding_all rfl) "A" 1 "noisy" (mkOCell exOverlapA "A" 1 "noisy")
    (by with_unfolding_all decide) 150 100
    (by with_unfolding_all rfl) (by with_unfolding_all rfl)

/-- C5 counterexample: on "1e5" the integer parse fails and the float parse
succeeds (Python float("1e5") = 100000.0), yet coerce_value returns the text
unchanged because no dot is present, so the claimed int-then-float fallback
does not happen. -/
theorem coerce_value_c5_counterexample :
    pyIntParse "1e5".toList = none ∧
    pyFloatParse "1e5".toList = some 100000 ∧
    coerce_value "1e5".toList = PyVal.vstr "1e5".toList ∧
    coerce_value_specWording "1e5".toList = PyVal.vfloat 100000 := by
  refine ⟨by decide, by with_unfolding_all rfl, by decide,
    by with_unfolding_all rfl⟩

/-- C5 (amended): "-" and "NA" are absent; otherwise exactly one numeric
parse is attempted, float when a dot is present and int when not, the text
being returned unchanged when that one parse fails; in particular "12" gives
integer 12, "3.5" gives float 3.5 and "abc" stays text. -/
theorem coerce_value_c5_amended :
    coerce_value "12".toList = PyVal.vint 12 ∧
    coerce_value "3.5".toList = PyVal.vfloat (7 / 2) ∧
    coerce_value "abc".toList = PyVal.vstr "abc".toList ∧
    coerce_value "-".toList = PyVal.vnone ∧
    coerce_value "NA".toList = PyVal.vnone ∧
    ∀ value : List Char, ¬(value = "-".toList ∨ value = "NA".toList) →
      ((value.contains '.' = true →
        coerce_value value =
          (match pyFloatParse value with
           | some q => PyVal.vfloat q
           | none => PyVal.vstr value)) ∧
       (value.contains '.' = false →
        coerce_value value =
          (match pyIntParse value with
           | some n => PyVal.vint n
           | none => PyVal.vstr value))) := by
  refine ⟨by decide, by with_unfolding_all rfl, by decide, by decide,
    by decide, ?_⟩
  intro value h
  constructor
  · intro hdot
    unfold coerce_value
    rw [if_neg h, if_pos hdot]
  · intro hdot
    unfold coerce_value
    rw [if_neg h, if_neg (by rw [hdot]; decide)]


/-! ### C6: the incomplete-dataset failure -/

theorem missingNC_none_iff (rows : List CRow) :
    missingNC rows = none ↔
      ∀ n ∈ nodesOf rows, ∀ c ∈ contentionsOf rows, rowsNC rows n c ≠ [] := by
  rw [missingNC]
  constructor
  · intro h n hn c hc hempty
    have hmem : (n, c) ∈ ncPairs rows := by
      simp only [ncPairs, List.mem_flatMap, List.mem_map]
      exact ⟨n, hn, c, hc, rfl⟩
    have h2 := List.find?_eq_none.mp h _ hmem
    rw [hempty] at h2
    simp at h2
  · intro h
    rw [List.find?_eq_none]
    intro nc hmem
    simp only [ncPairs, List.mem_flatMap, List.mem_map] at hmem
    obtain ⟨n, hn, c, hc, rfl⟩ := hmem
    simpa [List.isEmpty_iff] using h n hn c hc

/-- C6 counterexample: the (dataset_id = B, primary_nodes = 1,
contention = quiet) combination of exIncomplete has no secondary row, yet
calculate_contention_overlap succeeds: the secondary pivot column exists
thanks to dataset A, B's NaN cell is skipped, and a table is returned
instead of the claimed incomplete-dataset failure. -/
theorem calculate_overlap_c6_counterexample :
    rowsDNCW exIncomplete "B" 1 "quiet" "secondary" = [] ∧
    "B" ∈ datasetsOf exIncomplete ∧ 1 ∈ nodesOf exIncomplete ∧
    "quiet" ∈ contentionsOf exIncomplete ∧
    calculate_contention_overlap exIncomplete =
      Except.ok (overlapTable exIncomplete) := by
  refine ⟨by with_unfolding_all rfl, by with_unfolding_all decide,
    by with_unfolding_all decide, by with_unfolding_all decide,
    by with_unfolding_all rfl⟩

/-- C6 (amended): calculate_contention_overlap fails — with the
incomplete-dataset error naming the offending combination, and no table —
exactly when some (primary_nodes, contention) pair of observed values has
no rows at all; a (dataset_id, primary_nodes, contention) group that merely
lacks its primary or secondary row does not raise when other rows populate
that (primary_nodes, contention) pair. -/
theorem calculate_overlap_c6_amended (rows : List CRow) :
    ((∃ e, calculate_contention_overlap rows = Except.error e) ↔
      ∃ n ∈ nodesOf rows, ∃ c ∈ contentionsOf rows, rowsNC rows n c = []) ∧
    (∀ n c, calculate_contention_overlap rows = Except.error (n, c) →
      n ∈ nodesOf rows ∧ c ∈ contentionsOf rows ∧ rowsNC rows n c = []) := by
  have hextract : ∀ nc, missingNC rows = some nc →
      nc.1 ∈ nodesOf rows ∧ nc.2 ∈ contentionsOf rows ∧
        rowsNC rows nc.1 nc.2 = [] := by
    intro nc hm
    have hmem := List.mem_of_find?_eq_some hm
    have hp := List.find?_some hm
    simp only [ncPairs, List.mem_flatMap, List.mem_map] at hmem
    obtain ⟨n, hn, c, hc, rfl⟩ := hmem
    exact ⟨hn, hc, List.isEmpty_iff.mp hp⟩
  constructor
  · constructor
    · rintro ⟨e, he⟩
      unfold calculate_contention_overlap at he
      cases hm : missingNC rows with
      | none => rw [hm] at he; cases he
      | some nc =>
        obtain ⟨hn, hc, hempty⟩ := hextract nc hm
        exact ⟨nc.1, hn, nc.2, hc, hempty⟩
    · rintro ⟨n, hn, c, hc, hempty⟩
      cases hm : missingNC rows with
      | some nc =>
        refine ⟨nc, ?_⟩
        unfold calculate_contention_overlap
        rw [hm]
      | none =>
        exact absurd hempty ((missingNC_none_iff rows).mp hm n hn c hc)
  · intro n c he
    unfold calculate_contention_overlap at he
    cases hm : missingNC rows with
    | none => rw [hm] at he; cases he
    | some nc =>
      rw [hm] at he
      have hnc : nc = (n, c) := Except.error.inj he
      subst hnc
      exact hextract (n, c) hm

/-! ### C7: the rapid-quiet-starts check -/

/-- C7 counterexample: exRapid satisfies the walltime floor everywhere and
has two quiet starts only 5 s apart, yet validation does not raise the
rapid-quiet-starts failure: with no secondary row anywhere, the .loc
selection of the secondary workload columns (contention.py line 129)
raises KeyError before the quiet-starts check is reached. -/
theorem validate_rapid_quiet_c7_counterexample :
    (∀ r ∈ exRapid, (45 : ℚ) ≤ r.end_ - r.start) ∧
    (∃ g ∈ consecGaps (quietStartsSorted exRapid), g < (45 : ℚ)) ∧
    validate_defaults exRapid =
      Except.error (ValidationError.missingRoleColumns "secondary") := by
  refine ⟨by with_unfolding_all decide, ⟨5, ?_, by norm_num⟩,
    by with_unfolding_all rfl⟩
  have h : consecGaps (quietStartsSorted exRapid) = [5] := by
    with_unfolding_all rfl
  rw [h]
  exact List.mem_singleton.mpr rfl

/-- C7 (amended): for a table whose rows all satisfy the minimum-walltime
floor and whose deltatime construction succeeds — both workload roles
present, and the secondary role's (primary_nodes, contention) pairs as
numerous as the primary role's and as the whole table's — the
rapid-quiet-starts failure (a JobOverlapError) is raised exactly when some
pair of consecutive sorted quiet start timestamps differs by less than the
floor; when every consecutive gap is at least the floor this check passes
(whatever later checks decide, the result is not rapidQuietStarts). -/
theorem validate_rapid_quiet_c7_amended (rows : List CRow) (m fl : ℚ)
    (w : Option ℚ)
    (hfloor : ∀ r ∈ rows, fl ≤ r.end_ - r.start)
    (hsec : (rows.filter
      (fun r => r.workload_id == "secondary")).isEmpty = false)
    (hpri : (rows.filter
      (fun r => r.workload_id == "primary")).isEmpty = false)
    (hshape : (rolePairs rows "secondary").length =
      (rolePairs rows "primary").length)
    (hcover : (rolePairs rows "secondary").length =
      (allPairs rows).length) :
    ((∃ g ∈ consecGaps (quietStartsSorted rows), g < fl) →
      validate_contention_dataset rows m fl w =
        Except.error ValidationError.rapidQuietStarts) ∧
    ((∀ g ∈ consecGaps (quietStartsSorted rows), fl ≤ g) →
      validate_contention_dataset rows m fl w ≠
        Except.error ValidationError.rapidQuietStarts) := by
  have hshort :
      (rows.map (fun r => r.end_ - r.start)).any
        (fun x => decide (x < fl)) = false := by
    by_contra hc
    rw [Bool.not_eq_false, List.any_eq_true] at hc
    obtain ⟨x, hx, hlt⟩ := hc
    obtain ⟨r, hr, rfl⟩ := List.mem_map.mp hx
    exact absurd (hfloor r hr) (not_le.mpr (of_decide_eq_true hlt))
  have hsh1 : ((rolePairs rows "secondary").length ≠
      (rolePairs rows "primary").length) = False :=
    eq_false (not_not_intro hshape)
  have hsh2 : ((rolePairs rows "secondary").length ≠
      (allPairs rows).length) = False :=
    eq_false (not_not_intro hcover)
  constructor
  · rintro ⟨g, hg, hlt⟩
    have hq : (quietRows rows).isEmpty = false := by
      cases hqe : quietRows rows with
      | nil =>
        exfalso
        unfold quietStartsSorted at hg
        rw [hqe] at hg
        simp [consecGaps, List.insertionSort] at hg
      | cons a tl => rfl
    have hany :
        (consecGaps (quietStartsSorted rows)).any
          (fun g => decide (g < fl)) = true :=
      List.any_eq_true.mpr ⟨g, hg, decide_eq_true hlt⟩
    unfold validate_contention_dataset
    rw [if_neg (by simp [hshort]), if_neg (by simp [hsec]),
      if_neg (by simp [hpri]), if_neg (not_not_intro hshape),
      if_neg (not_not_intro hcover), if_neg (by simp [hq]), if_pos hany]
  · intro hall
    have hany :
        (consecGaps (quietStartsSorted rows)).any
          (fun g => decide (g < fl)) = false := by
      by_contra hc
      rw [Bool.not_eq_false, List.any_eq_true] at hc
      obtain ⟨g, hg, hlt⟩ := hc
      exact absurd (hall g hg) (not_le.mpr (of_decide_eq_true hlt))
    cases hqe : (quietRows rows).isEmpty with
    | true =>
      simp [validate_contention_dataset, hshort, hsec, hpri, hsh1, hsh2, hqe]
    | false =>
      cases hc : calculate_contention_overlap rows with
      | error nc =>
        simp [validate_contention_dataset, hshort, hsec, hpri, hsh1, hsh2,
          hqe, hany, hc]
      | ok t =>
        by_cases hnoisy : "noisy" ∈ contentionsOf rows
        · by_cases hbad :
            (noisyStats rows).any (fun s => fracLt s.2.2 m) = true
          · simp [validate_contention_dataset, hshort, hsec, hpri, hsh1,
              hsh2, hqe, hany, hc, hnoisy, hbad]
          · simp [validate_contention_dataset, hshort, hsec, hpri, hsh1,
              hsh2, hqe, hany, hc, hnoisy, hbad]
        · simp [validate_contention_dataset, hshort, hsec, hpri, hsh1,
            hsh2, hqe, hany, hc, hnoisy]

/-- C7 witness: the amended statement at exRapidBoth — both roles present
with matching column shapes, two quiet starts 5 s apart, floor 45 s — fails
with the rapid-quiet-starts condition at the Python defaults. -/
theorem validate_rapid_quiet_c7_amended_witness :
    validate_defaults exRapidBoth =
      Except.error ValidationError.rapidQuietStarts :=
  (validate_rapid_quiet_c7_amended exRapidBoth (80 / 100) 45
    (some (90 / 100))
    (by with_unfolding_all decide) (by with_unfolding_all rfl)
    (by with_unfolding_all rfl) (by with_unfolding_all rfl)
    (by with_unfolding_all rfl)).1
    ⟨5, by
      have h : consecGaps (quietStartsSorted exRapidBoth) = [5] := by
        with_unfolding_all rfl
      rw [h]
      exact List.mem_singleton.mpr rfl, by norm_num⟩

/-! ### C8: the warning threshold -/

/-- C8 counterexample: with min_overlap = 0.84 and the warning threshold not
supplied (so the Python signature default 0.90 applies), the noisy pair of
exWarn has overlap fraction 0.91, below the claimed threshold
1 - (1 - 0.84)/2 = 0.92, yet validation succeeds with an empty warning
list: the claimed formula is not what an unsupplied threshold uses. -/
theorem validate_warn_c8_counterexample :
    noisyStats exWarn = [("A", 1, some (91 / 100))] ∧
    (91 : ℚ) / 100 < 1 - (1 - 84 / 100) / 2 ∧
    validate_default_warn exWarn (84 / 100) = Except.ok [] := by
  refine ⟨by with_unfolding_all rfl, by norm_num, by with_unfolding_all rfl⟩

/-- C8 (amended): the halfway formula 1 - (1 - min_overlap)/2 is used only
when the caller passes None explicitly for min_overlap_warn; a caller that
does not supply the threshold gets the signature default 0.90 (equal to the
formula only at the default min_overlap = 0.80).  Once the earlier checks
pass - walltime floor, the deltatime role selection and shapes, quiet-start
spacing, dataset completeness - validation warns exactly on the noisy rows
whose overlap fraction is below the threshold used, and fails exactly when
some fraction is below min_overlap. -/
theorem validate_warn_c8_amended (rows : List CRow) (m fl t : ℚ) (w : Option ℚ)
    (hshort : (rows.map (fun r => r.end_ - r.start)).any
      (fun x => decide (x < fl)) = false)
    (hsec : (rows.filter
      (fun r => r.workload_id == "secondary")).isEmpty = false)
    (hpri : (rows.filter
      (fun r => r.workload_id == "primary")).isEmpty = false)
    (hshape : (rolePairs rows "secondary").length =
      (rolePairs rows "primary").length)
    (hcover : (rolePairs rows "secondary").length =
      (allPairs rows).length)
    (hq : (quietRows rows).isEmpty = false)
    (hgap : (consecGaps (quietStartsSorted rows)).any
      (fun g => decide (g < fl)) = false)
    (hmiss : missingNC rows = none)
    (hnoisy : "noisy" ∈ contentionsOf rows) :
    warnThreshUsed m none = 1 - (1 - m) / 2 ∧
    warnThreshUsed m (some t) = t ∧
    validate_default_warn rows m =
      validate_contention_dataset rows m 45 (some (90 / 100)) ∧
    ((noisyStats rows).any (fun s => fracLt s.2.2 m) = true →
      validate_contention_dataset rows m fl w =
        Except.error ValidationError.insufficientOverlap) ∧
    ((noisyStats rows).any (fun s => fracLt s.2.2 m) = false →
      validate_contention_dataset rows m fl w =
        Except.ok (((noisyStats rows).filter
            (fun s => fracLt s.2.2 (warnThreshUsed m w))).map
          (fun s => (s.1, s.2.1)))) := by
  have hcalc : calculate_contention_overlap rows =
      Except.ok (overlapTable rows) := by
    unfold calculate_contention_overlap
    rw [hmiss]
  have hsh1 : ((rolePairs rows "secondary").length ≠
      (rolePairs rows "primary").length) = False :=
    eq_false (not_not_intro hshape)
  have hsh2 : ((rolePairs rows "secondary").length ≠
      (allPairs rows).length) = False :=
    eq_false (not_not_intro hcover)
  refine ⟨rfl, rfl, rfl, ?_, ?_⟩
  · intro hbad
    simp [validate_contention_dataset, hshort, hsec, hpri, hsh1, hsh2, hq,
      hgap, hcalc, hnoisy, hbad]
  · intro hbad
    simp [validate_contention_dataset, hshort, hsec, hpri, hsh1, hsh2, hq,
      hgap, hcalc, hnoisy, hbad]

/-- C8 witness: the amended statement at the concrete table exWarn with
min_overlap = 0.84. -/
theorem validate_warn_c8_amended_witness :
    warnThreshUsed (84 / 100) none = 1 - (1 - 84 / 100) / 2 ∧
    warnThreshUsed (84 / 100) (some (1 / 2)) = 1 / 2 ∧
    validate_default_warn exWarn (84 / 100) =
      validate_contention_dataset exWarn (84 / 100) 45 (some (90 / 100)) ∧
    ((noisyStats exWarn).any (fun s => fracLt s.2.2 (84 / 100)) = true →
      validate_contention_dataset exWarn (84 / 100) 45 (some (90 / 100)) =
        Except.error ValidationError.insufficientOverlap) ∧
    ((noisyStats exWarn).any (fun s => fracLt s.2.2 (84 / 100)) = false →
      validate_contention_dataset exWarn (84 / 100) 45 (some (90 / 100)) =
        Except.ok (((noisyStats exWarn).filter
            (fun s => fracLt s.2.2
              (warnThreshUsed (84 / 100) (some (90 / 100))))).map
          (fun s => (s.1, s.2.1)))) :=
  validate_warn_c8_amended exWarn (84 / 100) 45 (1 / 2) (some (90 / 100))
    (by with_unfolding_all rfl) (by with_unfolding_all rfl)
    (by with_unfolding_all rfl) (by with_unfolding_all rfl)
    (by with_unfolding_all rfl) (by with_unfolding_all rfl)
    (by with_unfolding_all rfl) (by with_unfolding_all rfl)
    (by with_unfolding_all decide)


/-! ### C1: the overlap formulas -/

theorem list_of_length_one {α : Type} {l : List α} (h : l.length = 1) :
    ∃ a, l = [a] := by
  match l, h with
  | [a], _ => exact ⟨a, rfl⟩

theorem filter_pair_second {α : Type} {a b : α} {p : α → Bool}
    (hp : (List.filter p [a, b]).length = 1) (ha : p a = false) : p b = true := by
  cases hv : p b
  · rw [List.filter_cons, List.filter_cons, List.filter_nil, ha, hv] at hp
    simp at hp
  · rfl

theorem filter_pair_first {α : Type} {a b : α} {p : α → Bool}
    (hp : (List.filter p [a, b]).length = 1) (hb : p b = false) : p a = true := by
  cases hv : p a
  · rw [List.filter_cons, List.filter_cons, List.filter_nil, hv, hb] at hp
    simp at hp
  · rfl

theorem two_filter_covers {α : Type} (a b : α) (p q : α → Bool)
    (hp : (List.filter p [a, b]).length = 1)
    (hq : (List.filter q [a, b]).length = 1)
    (hpq : ∀ y, ¬(p y = true ∧ q y = true)) :
    ∀ x ∈ [a, b], p x = true ∨ q x = true := by
  intro x hx
  by_contra hcon
  push_neg at hcon
  have hpx : p x = false := by
    cases hv : p x
    · rfl
    · exact absurd hv hcon.1
  have hqx : q x = false := by
    cases hv : q x
    · rfl
    · exact absurd hv hcon.2
  rcases List.mem_pair.mp hx with rfl | rfl
  · exact absurd ⟨filter_pair_second hp hpx, filter_pair_second hq hqx⟩ (hpq b)
  · exact absurd ⟨filter_pair_first hp hpx, filter_pair_first hq hqx⟩ (hpq a)

theorem mem_rowsNC_of_mem_rowsDNCW {rows : List CRow} {d : String} {n : Nat}
    {c w : String} {r : CRow} (h : r ∈ rowsDNCW rows d n c w) :
    r ∈ rowsNC rows n c ∧ r.workload_id = w := by
  have h1 := List.mem_filter.mp h
  have h2 := List.mem_filter.mp h1.1
  exact ⟨h2.1, by simpa using h1.2⟩

theorem wids_pair (rows : List CRow)
    (hgroups : ∀ d ∈ datasetsOf rows, ∀ n ∈ nodesOf rows,
      ∀ c ∈ contentionsOf rows,
      (rowsDNC rows d n c).length = 2 ∧
      (rowsDNCW rows d n c "primary").length = 1 ∧
      (rowsDNCW rows d n c "secondary").length = 1)
    (n : Nat) (hn : n ∈ nodesOf rows) (c : String)
    (hc : c ∈ contentionsOf rows) (d : String) (hd : d ∈ datasetsOf rows) :
    widsNC rows n c = ["primary", "secondary"] ∨
      widsNC rows n c = ["secondary", "primary"] := by
  have hmemw : ∀ w : String, (∃ r ∈ rowsNC rows n c, r.workload_id = w) →
      w ∈ widsNC rows n c := by
    rintro w ⟨r, hr, rfl⟩
    rw [widsNC, mem_uniqueKeep]
    exact List.mem_map_of_mem _ hr
  have hexcl : ∀ y : CRow,
      ¬((y.workload_id == "primary") = true ∧
        (y.workload_id == "secondary") = true) := by
    rintro y ⟨h1, h2⟩
    rw [beq_iff_eq] at h1 h2
    exact absurd (h1.symm.trans h2) (by decide)
  refine nodup_two_valued (nodup_uniqueKeep _) ?_ ?_ ?_ (by decide)
  · intro x hx
    rw [widsNC, mem_uniqueKeep] at hx
    obtain ⟨r, hr, rfl⟩ := List.mem_map.mp hx
    have hrrows : r ∈ rows := (List.mem_filter.mp hr).1
    have hd2 : r.dataset_id ∈ datasetsOf rows := by
      rw [datasetsOf, mem_uniqueKeep]
      exact List.mem_map_of_mem _ hrrows
    obtain ⟨hlen2, hlenp, hlens⟩ := hgroups r.dataset_id hd2 n hn c hc
    have hrd : r ∈ rowsDNC rows r.dataset_id n c :=
      List.mem_filter.mpr ⟨hr, by simp⟩
    obtain ⟨a, b, hab⟩ := list_of_length_two hlen2
    rw [rowsDNCW, hab] at hlenp hlens
    rw [hab] at hrd
    have := two_filter_covers a b _ _ hlenp hlens hexcl r hrd
    rcases this with h | h
    · exact Or.inl (by simpa using h)
    · exact Or.inr (by simpa using h)
  · obtain ⟨p, hp⟩ := list_of_length_one (hgroups d hd n hn c hc).2.1
    have hmem := mem_rowsNC_of_mem_rowsDNCW (hp ▸ List.mem_singleton.mpr rfl)
    exact hmemw _ ⟨p, hmem.1, hmem.2⟩
  · obtain ⟨s, hs⟩ := list_of_length_one (hgroups d hd n hn c hc).2.2
    have hmem := mem_rowsNC_of_mem_rowsDNCW (hs ▸ List.mem_singleton.mpr rfl)
    exact hmemw _ ⟨s, hmem.1, hmem.2⟩

theorem meanOpt_single (x : ℚ) : meanOpt [x] = some x := by
  simp [meanOpt]

theorem cell_stats_of_pair (rows : List CRow) (d : String) (n : Nat)
    (c : String) (p s : CRow)
    (hw : widsNC rows n c = ["primary", "secondary"] ∨
      widsNC rows n c = ["secondary", "primary"])
    (hp : rowsDNCW rows d n c "primary" = [p])
    (hs : rowsDNCW rows d n c "secondary" = [s]) :
    endsMin rows d n c = some (min p.end_ s.end_) ∧
    endsMax rows d n c = some (max p.end_ s.end_) ∧
    startsMin rows d n c = some (min p.start s.start) ∧
    startsMax rows d n c = some (max p.start s.start) := by
  have hcp : ∀ f : CRow → ℚ, cellVal rows d n c "primary" f = some (f p) := by
    intro f
    rw [cellVal, hp]
    exact meanOpt_single (f p)
  have hcs : ∀ f : CRow → ℚ, cellVal rows d n c "secondary" f = some (f s) := by
    intro f
    rw [cellVal, hs]
    exact meanOpt_single (f s)
  rcases hw with hw | hw <;> refine ⟨?_, ?_, ?_, ?_⟩ <;>
    simp [endsMin, endsMax, startsMin, startsMax, hw, hcp, hcs, minSkip,
      maxSkip, optMin, optMax] <;>
    first
      | rfl
      | exact min_comm _ _
      | exact max_comm _ _

theorem mkOCell_of_pair (rows : List CRow) (d : String) (n : Nat) (c : String)
    (p s : CRow)
    (hw : widsNC rows n c = ["primary", "secondary"] ∨
      widsNC rows n c = ["secondary", "primary"])
    (hp : rowsDNCW rows d n c "primary" = [p])
    (hs : rowsDNCW rows d n c "secondary" = [s]) :
    mkOCell rows d n c =
      OCell.mk (max 0 (min p.end_ s.end_ - max p.start s.start))
        (some ((max p.end_ s.end_ - min p.start s.start) -
          max 0 (min p.end_ s.end_ - max p.start s.start)))
        (some (max p.end_ s.end_ - min p.start s.start)) := by
  obtain ⟨h1, h2, h3, h4⟩ := cell_stats_of_pair rows d n c p s hw hp hs
  rw [mkOCell, cellOverlapping, cellTotal, h1, h2, h3, h4]
  simp [osub, pymax0]

/-- C1: when every (dataset_id, primary_nodes, contention) group of the
table consists of exactly one primary and one secondary row, the overlap
computation succeeds, and for each group the table holds
overlapping = max(0, min(end_p, end_s) - max(start_p, start_s)),
total = max(end_p, end_s) - min(start_p, start_s) and
non_overlapping = total - overlapping. -/
theorem calculate_overlap_c1 (rows : List CRow)
    (hgroups : ∀ d ∈ datasetsOf rows, ∀ n ∈ nodesOf rows,
      ∀ c ∈ contentionsOf rows,
      (rowsDNC rows d n c).length = 2 ∧
      (rowsDNCW rows d n c "primary").length = 1 ∧
      (rowsDNCW rows d n c "secondary").length = 1) :
    calculate_contention_overlap rows = Except.ok (overlapTable rows) ∧
    ∀ d ∈ datasetsOf rows, ∀ n ∈ nodesOf rows, ∀ c ∈ contentionsOf rows,
      ∀ p s : CRow, rowsDNCW rows d n c "primary" = [p] →
        rowsDNCW rows d n c "secondary" = [s] →
        (d, n, c,
          OCell.mk (max 0 (min p.end_ s.end_ - max p.start s.start))
            (some ((max p.end_ s.end_ - min p.start s.start) -
              max 0 (min p.end_ s.end_ - max p.start s.start)))
            (some (max p.end_ s.end_ - min p.start s.start))) ∈
          overlapTable rows := by
  constructor
  · have hnone : missingNC rows = none := by
      rw [missingNC_none_iff]
      intro n hn c hc hempty
      have hrows : ∃ r ∈ rows, r.primary_nodes = n := by
        rw [nodesOf, mem_uniqueKeep] at hn
        obtain ⟨r, hr, hrn⟩ := List.mem_map.mp hn
        exact ⟨r, hr, hrn⟩
      obtain ⟨r0, hr0, -⟩ := hrows
      have hd0 : r0.dataset_id ∈ datasetsOf rows := by
        rw [datasetsOf, mem_uniqueKeep]
        exact List.mem_map_of_mem _ hr0
      obtain ⟨p, hp⟩ :=
        list_of_length_one (hgroups r0.dataset_id hd0 n hn c hc).2.1
      have hmem := mem_rowsNC_of_mem_rowsDNCW (hp ▸ List.mem_singleton.mpr rfl)
      rw [hempty] at hmem
      exact absurd hmem.1 (List.not_mem_nil p)
    unfold calculate_contention_overlap
    rw [hnone]
  · intro d hd n hn c hc p s hp hs
    have hw := wids_pair rows hgroups n hn c hc d hd
    rw [mem_overlapTable]
    exact ⟨d, hd, n, hn, c, hc, by rw [mkOCell_of_pair rows d n c p s hw hp hs]⟩

/-- C1 witness: primary [0,100] with secondary [50,150] gives
overlapping=50, total=150, non_overlapping=100, and the disjoint windows
[0,10], [20,30] give overlapping=0, total=30, non_overlapping=30. -/
theorem calculate_overlap_c1_witness :
    (calculate_contention_overlap exOverlapA =
        Except.ok (overlapTable exOverlapA) ∧
      ("A", 1, "noisy", OCell.mk 50 (some 100) (some 150)) ∈
        overlapTable exOverlapA) ∧
    (calculate_contention_overlap exOverlapB =
        Except.ok (overlapTable exOverlapB) ∧
      ("A", 1, "noisy", OCell.mk 0 (some 30) (some 30)) ∈
        overlapTable exOverlapB) := by
  have hA := calculate_overlap_c1 exOverlapA (by with_unfolding_all decide)
  have hB := calculate_overlap_c1 exOverlapB (by with_unfolding_all decide)
  refine ⟨⟨hA.1, ?_⟩, ⟨hB.1, ?_⟩⟩
  · have := hA.2 "A" (by with_unfolding_all decide) 1
      (by with_unfolding_all decide) "noisy" (by with_unfolding_all decide)
      (CRow.mk "A" 1 "noisy" "primary" 0 100)
      (CRow.mk "A" 1 "noisy" "secondary" 50 150)
      (by with_unfolding_all rfl) (by with_unfolding_all rfl)
    convert this using 2
    norm_num
  · have := hB.2 "A" (by with_unfolding_all decide) 1
      (by with_unfolding_all decide) "noisy" (by with_unfolding_all decide)
      (CRow.mk "A" 1 "noisy" "primary" 0 10)
      (CRow.mk "A" 1 "noisy" "secondary" 20 30)
      (by with_unfolding_all rfl) (by with_unfolding_all rfl)
    convert this using 2
    norm_num


/-! ### C2: crash on the lines the spec calls non-fatal -/

/-- C2 (code bug): a Commencing line arriving while the in-progress record
lacks an access field crashes the parse: self._this_record.get('access')
yields None and .lower() raises AttributeError.  The guard just below that
call (if expected_access and ...) shows a warn-and-continue path was
intended, and the spec's never-fatal contract is violated. -/
theorem parse_c2_crash :
    ior_run stpZero true exCrash = Except.error PyErr.attributeError := by
  with_unfolding_all rfl

/-! ### Dict update lemmas -/

theorem dget_dset : ∀ (d : Dict) (k : List Char) (v : PyVal) (k2 : List Char),
    dget (dset d k v) k2 = if k2 = k then some v else dget d k2
  | [], k, v, k2 => by
    by_cases h : k = k2
    · subst h
      simp [dset, dget]
    · have h2 : ¬(k2 = k) := fun hc => h hc.symm
      simp [dset, dget, h, h2]
  | (ka, va) :: t, k, v, k2 => by
    by_cases hka : ka = k
    · subst hka
      by_cases h2 : ka = k2
      · subst h2
        simp [dset, dget]
      · have h3 : ¬(k2 = ka) := fun hc => h2 hc.symm
        simp [dset, dget, h2, h3]
    · by_cases h2 : ka = k2
      · subst h2
        have h3 : ¬(ka = k) := hka
        simp [dset, dget, h3]
      · simp [dset, dget, hka, h2, dget_dset t k v k2]

theorem dget_dupdate_not_mem (e : Dict) (d : Dict) (k : List Char)
    (h : dmem e k = false) : dget (dupdate d e) k = dget d k := by
  induction e generalizing d with
  | nil => rfl
  | cons kv t ih =>
    obtain ⟨ka, va⟩ := kv
    simp only [dmem, Bool.or_eq_false_iff, beq_eq_false_iff_ne, ne_eq] at h
    show dget (dupdate (dset d ka va) t) k = dget d k
    rw [ih (dset d ka va) (by simpa using h.2), dget_dset]
    rw [if_neg (fun hc => h.1 hc.symm)]

theorem dget_dupdate_mem (e : Dict) (d d2 : Dict) (k : List Char)
    (h : dmem e k = true) : dget (dupdate d e) k = dget (dupdate d2 e) k := by
  induction e generalizing d d2 with
  | nil => simp [dmem] at h
  | cons kv t ih =>
    obtain ⟨ka, va⟩ := kv
    show dget (dupdate (dset d ka va) t) k = dget (dupdate (dset d2 ka va) t) k
    cases hm : dmem t k with
    | true => exact ih (dset d ka va) (dset d2 ka va) hm
    | false =>
      have hk : ka = k := by
        simp only [dmem, Bool.or_eq_true, beq_iff_eq] at h
        rcases h with h | h
        · exact h
        · rw [h] at hm; cases hm
      rw [dget_dupdate_not_mem t _ k hm, dget_dupdate_not_mem t _ k hm,
        dget_dset, dget_dset, hk]
      simp

/-! ### C3: normalize uses the last run's header -/

set_option maxHeartbeats 1000000 in
theorem load_exTwoRuns_seg1 (tail : List (List Char)) :
    load_output stpZero initState
      ("IOR-3.3.0: MPI Coordinated Test of Parallel I/O".toList ::
        "nodes               : 4".toList ::
        "        aggregate filesize : 4 bytes".toList ::
        "Results:".toList :: tail) =
      load_output stpZero stA tail := by
  with_unfolding_all rfl

set_option maxHeartbeats 1000000 in
theorem load_exTwoRuns_seg2 (tail : List (List Char)) :
    load_output stpZero stA
      ("access bw(MiB/s)".toList :: "---------".toList ::
        "write 100".toList ::
        "Finished            : Tue Jul 20 13:00:00 2021".toList :: tail) =
      load_output stpZero stMid tail := by
  with_unfolding_all rfl

set_option maxHeartbeats 1000000 in
theorem load_exTwoRuns_seg3 (tail : List (List Char)) :
    load_output stpZero stMid
      ("IOR-3.3.0: MPI Coordinated Test of Parallel I/O".toList ::
        "nodes               : 8".toList ::
        "        aggregate filesize : 4 bytes".toList ::
        "Results:".toList :: tail) =
      load_output stpZero stB tail := by
  with_unfolding_all rfl

set_option maxHeartbeats 1000000 in
theorem load_exTwoRuns_seg4 :
    load_output stpZero stB
      ["access bw(MiB/s)".toList, "---------".toList, "write 200".toList] =
      Except.ok stTwo := by
  with_unfolding_all rfl

theorem load_exTwoRuns :
    load_output stpZero initState exTwoRuns = Except.ok stTwo :=
  (load_exTwoRuns_seg1 (exTwoRuns.drop 4)).trans
    ((load_exTwoRuns_seg2 (exTwoRuns.drop 8)).trans
      ((load_exTwoRuns_seg3 (exTwoRuns.drop 12)).trans load_exTwoRuns_seg4))

theorem load_exOneRun :
    load_output stpZero initState exOneRun = Except.ok stMid :=
  (load_exTwoRuns_seg1 (exOneRun.drop 4)).trans (load_exTwoRuns_seg2 [])

set_option maxHeartbeats 1000000 in
/-- C3 counterexample: run 1 of exTwoRuns declares nodes=4 (as parsing its
eight lines alone shows), run 2 declares nodes=8; after parsing both runs
with normalize, run 1's operation record carries nodes=8 — a header value
from the run that did not produce it. -/
theorem parse_c3_counterexample :
    exOneRun = exTwoRuns.take 8 ∧
    (resultsOf (ior_run stpZero true exOneRun)).map
        (fun rs => rs.map (fun r => dget r "nodes".toList)) =
      some [some (PyVal.vint 4)] ∧
    (resultsOf (ior_run stpZero true exTwoRuns)).map
        (fun rs => rs.map (fun r => dget r "nodes".toList)) =
      some [some (PyVal.vint 8), some (PyVal.vint 8)] := by
  refine ⟨rfl, ?_, ?_⟩
  · have hrun : ior_run stpZero true exOneRun =
        Except.ok { stMid with
          results := some ([cRec1].map (fun r => dupdate r cHdr1)) } := by
      simp only [ior_run, load_exOneRun]
      rfl
    rw [hrun]
    with_unfolding_all rfl
  · have hrun : ior_run stpZero true exTwoRuns =
        Except.ok { stTwo with
          results := some ([cRec1, cRec2].map (fun r => dupdate r cHdr2)) } := by
      simp only [ior_run, load_exTwoRuns]
      rfl
    rw [hrun]
    with_unfolding_all rfl


/-- C3 (amended): normalize attaches to every operation record the single
surviving header — the header dict as it stands after the whole stream,
i.e. the last run's — so per-run attachment holds only for single-run
streams.  A key of the final header determines the normalized value for
every record alike (whatever the record held); a key absent from the final
header keeps the record's own value. -/
theorem parse_c3_amended (stp : List Char → Option Int)
    (lines : List (List Char)) (st : IorState) (recs : List Dict) (h : Dict)
    (hraw : ior_run stp false lines = Except.ok st)
    (hres : st.results = some recs) (hhdr : st.header = some h) :
    ior_run stp true lines =
      Except.ok { st with results := some (recs.map (fun r => dupdate r h)) } ∧
    ∀ r : Dict, ∀ k : List Char,
      (dmem h k = false → dget (dupdate r h) k = dget r k) ∧
      (dmem h k = true → dget (dupdate r h) k = dget (dupdate [] h) k) := by
  constructor
  · have hload : load_output stp initState lines = Except.ok st := by
      unfold ior_run at hraw
      cases hl : load_output stp initState lines with
      | error e => rw [hl] at hraw; cases hraw
      | ok st2 =>
        rw [hl] at hraw
        simp at hraw
        rw [hraw]
    cases recs with
    | nil =>
      have hst : { st with results := some ([] : List Dict) } = st := by
        obtain ⟨p1, p2, p3, p4, p5, p6, p7, p8, p9, p10⟩ := st
        have h6 : p6 = some [] := hres
        cases h6
        rfl
      simp only [ior_run, hload, hres, List.map_nil, hst]
      simp
    | cons r rs =>
      simp only [ior_run, hload, hres, hhdr]
      rfl
  · intro r k
    exact ⟨dget_dupdate_not_mem h r k, dget_dupdate_mem h r [] k⟩

/-- C3 witness: the amended statement at the two-run stream exTwoRuns. -/
theorem parse_c3_amended_witness :
    (ior_run stpZero true exTwoRuns =
      Except.ok { stTwo with
        results := some (([cRec1, cRec2] : List Dict).map
          (fun r => dupdate r cHdr2)) }) ∧
    ∀ r : Dict, ∀ k : List Char,
      (dmem cHdr2 k = false → dget (dupdate r cHdr2) k = dget r k) ∧
      (dmem cHdr2 k = true →
        dget (dupdate r cHdr2) k = dget (dupdate [] cHdr2) k) :=
  parse_c3_amended stpZero exTwoRuns stTwo [cRec1, cRec2] cHdr2
    (by simp only [ior_run, load_exTwoRuns]; rfl) rfl rfl

/-! ### C4 counterexample: zip truncation drops trailing columns -/

/-- C4 counterexample: exShortRow's results header names three columns, its
single result row has two tokens, and the one emitted record binds only
those two names: the column "iops" is silently dropped from the record
rather than bound to an explicit absent value. -/
theorem parse_c4_counterexample :
    columnsOf (ior_run stpZero false exShortRow) =
      some ["access".toList, "bw(mib/s)".toList, "iops".toList] ∧
    resultsOf (ior_run stpZero false exShortRow) =
      some [[("access".toList, PyVal.vstr "read".toList),
             ("bw(mib/s)".toList, PyVal.vint 100)]] ∧
    (resultsOf (ior_run stpZero false exShortRow)).map
        (fun rs => rs.map (fun r => dmem r "iops".toList)) =
      some [false] := by
  refine ⟨by with_unfolding_all rfl, by with_unfolding_all rfl,
    by with_unfolding_all rfl⟩

/-! ### C10 counterexample: a swallowed per-rank stonewall line -/

/-- C10 counterexample: the last line of exSwallowed is a per-rank
stonewall report, but it sits in the separator slot that
find_results_header consumes via next() without dispatching, so nothing is
appended and stonewall_pairs stays absent. -/
theorem parse_c10_counterexample :
    pyContains "stonewalling pairs accessed:".toList
      "0: stonewalling pairs accessed: 5".toList = true ∧
    exSwallowed.getLastD [] = "0: stonewalling pairs accessed: 5".toList ∧
    stonewallOf (ior_run stpZero false exSwallowed) = some none := by
  refine ⟨by decide, by with_unfolding_all rfl, by with_unfolding_all rfl⟩

/-! ### Stonewall frame lemmas for the handlers -/

theorem find_run_begin_stonewall (st : IorState) (line : List Char) :
    (find_run_begin st line).stonewall_pairs = st.stonewall_pairs := by
  unfold find_run_begin
  split <;> rfl

theorem find_results_begin_stonewall (st : IorState) (line : List Char) :
    (find_results_begin st line).stonewall_pairs = st.stonewall_pairs := by
  unfold find_results_begin
  split <;> rfl

theorem parse_run_metadata_stonewall (stp : List Char → Option Int)
    (st : IorState) (line : List Char) (st2 : IorState)
    (h : parse_run_metadata stp st line = Except.ok st2) :
    st2.stonewall_pairs = st.stonewall_pairs := by
  unfold parse_run_metadata at h
  repeat' (first | split at h | dsimp only at h)
  all_goals cases h <;> rfl

theorem maxUpd_stonewall (st : IorState) (rec : Dict) (st2 : IorState)
    (h : maxUpd st rec = Except.ok st2) :
    st2.stonewall_pairs = st.stonewall_pairs := by
  unfold maxUpd at h
  repeat' (first | split at h | dsimp only at h)
  all_goals cases h <;> rfl

theorem parse_result_stonewall (stp : List Char → Option Int)
    (st : IorState) (line : List Char) (st2 : IorState)
    (h : parse_result stp st line = Except.ok st2) :
    st2.stonewall_pairs = st.stonewall_pairs := by
  unfold parse_result at h
  repeat' (first | split at h | dsimp only at h)
  all_goals first
    | (cases h <;> rfl)
    | (rename_i stm heq; cases h; exact maxUpd_stonewall _ _ stm heq)

theorem find_results_header_stonewall (st : IorState) (line : List Char)
    (rest : List (List Char)) :
    (∀ st2 skip, find_results_header st line rest = HRes.ok st2 skip →
      st2.stonewall_pairs = st.stonewall_pairs) ∧
    (∀ st2, find_results_header st line rest = HRes.stop st2 →
      st2.stonewall_pairs = st.stonewall_pairs) := by
  constructor
  · intro st2 skip h
    unfold find_results_header at h
    repeat' (first | split at h | dsimp only at h)
    all_goals cases h <;> rfl
  · intro st2 h
    unfold find_results_header at h
    repeat' (first | split at h | dsimp only at h)
    all_goals cases h <;> rfl

theorem find_summary_stonewall (st : IorState) (line : List Char)
    (rest : List (List Char)) :
    (∀ st2 skip, find_summary st line rest = HRes.ok st2 skip →
      st2.stonewall_pairs = st.stonewall_pairs) ∧
    (∀ st2, find_summary st line rest = HRes.stop st2 →
      st2.stonewall_pairs = st.stonewall_pairs) := by
  constructor
  · intro st2 skip h
    unfold find_summary at h
    repeat' (first | split at h | dsimp only at h)
    all_goals cases h <;> rfl
  · intro st2 h
    unfold find_summary at h
    repeat' (first | split at h | dsimp only at h)
    all_goals cases h <;> rfl

theorem parse_summary_stonewall (st : IorState) (line : List Char)
    (st2 : IorState) (h : parse_summary st line = Except.ok st2) :
    st2.stonewall_pairs = st.stonewall_pairs := by
  unfold parse_summary at h
  repeat' (first | split at h | dsimp only at h)
  all_goals cases h <;> rfl

theorem parse_anywhere_stonewall (stp : List Char → Option Int)
    (st : IorState) (line : List Char) (stA : IorState)
    (hm : pyContains "stonewalling pairs accessed:".toList line = false)
    (h : parse_anywhere stp st line = Except.ok (some stA)) :
    stA.stonewall_pairs = st.stonewall_pairs := by
  unfold parse_anywhere at h
  rw [if_neg (show
    ¬(pyContains "stonewalling pairs accessed:".toList line = true) by
    simpa using hm)] at h
  repeat' (first | split at h | dsimp only at h)
  all_goals cases h <;> rfl

theorem parse_line_stonewall (stp : List Char → Option Int) (st : IorState)
    (line : List Char) (rest : List (List Char))
    (hm : pyContains "stonewalling pairs accessed:".toList line = false) :
    (∀ st2 skip, parse_line stp st line rest = HRes.ok st2 skip →
      st2.stonewall_pairs = st.stonewall_pairs) ∧
    (∀ st2, parse_line stp st line rest = HRes.stop st2 →
      st2.stonewall_pairs = st.stonewall_pairs) := by
  constructor
  · intro st2 skip h
    unfold parse_line at h
    cases ha : parse_anywhere stp st line with
    | error e => rw [ha] at h; cases h
    | ok ost =>
      rw [ha] at h
      cases ost with
      | some stA =>
        cases h
        exact parse_anywhere_stonewall stp st line _ hm ha
      | none =>
        cases hp : st.pstate <;> rw [hp] at h
        · cases h
          exact find_run_begin_stonewall st line
        · cases hr : parse_run_metadata stp st line <;> rw [hr] at h
          · cases h
          · cases h
            exact parse_run_metadata_stonewall stp st line _ hr
        · cases h
          exact find_results_begin_stonewall st line
        · exact (find_results_header_stonewall st line rest).1 st2 skip h
        · cases hr : parse_result stp st line <;> rw [hr] at h
          · cases h
          · cases h
            exact parse_result_stonewall stp st line _ hr
        · exact (find_summary_stonewall st line rest).1 st2 skip h
        · cases hr : parse_summary st line <;> rw [hr] at h
          · cases h
          · cases h
            exact parse_summary_stonewall st line _ hr
  · intro st2 h
    unfold parse_line at h
    cases ha : parse_anywhere stp st line with
    | error e => rw [ha] at h; cases h
    | ok ost =>
      rw [ha] at h
      cases ost with
      | some stA => cases h
      | none =>
        cases hp : st.pstate <;> rw [hp] at h
        · cases h
        · cases hr : parse_run_metadata stp st line <;> rw [hr] at h
          · cases h
          · cases h
        · cases h
        · exact (find_results_header_stonewall st line rest).2 st2 h
        · cases hr : parse_result stp st line <;> rw [hr] at h
          · cases h
          · cases h
        · exact (find_summary_stonewall st line rest).2 st2 h
        · cases hr : parse_summary st line <;> rw [hr] at h
          · cases h
          · cases h

theorem setLast_length (sw : List (List (Int × Int)))
    (m : List (Int × Int)) (hne : sw ≠ []) :
    (setLast sw m).length = sw.length := by
  induction sw with
  | nil => exact absurd rfl hne
  | cons x t ih =>
    cases t with
    | nil => rfl
    | cons y u =>
      show (x :: setLast (y :: u) m).length = (x :: (y :: u)).length
      simp [ih (by simp)]

/-- C10 (amended): the stonewall-pairs sequence survives run boundaries for
every line the dispatcher actually sees: a dispatched line without the
per-rank marker substring — run-start and run-end markers included — never
changes stonewall_pairs, in any state; a dispatched marker line whose rank
and value parse appends via swStep into the single top-level sequence from
any state; and swStep begins a new rank-to-value mapping exactly when the
reported rank is already present in the last mapping.  (Marker lines
swallowed by a handler's inner next() are never dispatched and are dropped:
see the counterexample.) -/
theorem parse_c10_amended (stp : List Char → Option Int) (st : IorState)
    (line : List Char) (rest : List (List Char)) :
    (∀ st2 skip,
      pyContains "stonewalling pairs accessed:".toList line = false →
      parse_line stp st line rest = HRes.ok st2 skip →
      st2.stonewall_pairs = st.stonewall_pairs) ∧
    (∀ st2,
      pyContains "stonewalling pairs accessed:".toList line = false →
      parse_line stp st line rest = HRes.stop st2 →
      st2.stonewall_pairs = st.stonewall_pairs) ∧
    (∀ k v,
      pyContains "stonewalling pairs accessed:".toList line = true →
      pyIntE ((pySplitOn ':' line).headD []) = Except.ok k →
      pyIntE ((pySplitOn ':' line).getLastD []) = Except.ok v →
      parse_line stp st line rest =
        HRes.ok { st with
          stonewall_pairs := some (swStep (st.stonewall_pairs.getD [[]]) k v) }
          0) ∧
    (∀ (sw : List (List (Int × Int))) (k v : Int), sw ≠ [] →
      ((swStep sw k v).length = sw.length + 1 ↔
        swMem (sw.getLastD []) k = true)) := by
  refine ⟨fun st2 skip hm h =>
      (parse_line_stonewall stp st line rest hm).1 st2 skip h,
    fun st2 hm h => (parse_line_stonewall stp st line rest hm).2 st2 h,
    ?_, ?_⟩
  · intro k v hm hk hv
    have ha : parse_anywhere stp st line =
        Except.ok (some { st with
          stonewall_pairs := some (swStep (st.stonewall_pairs.getD [[]]) k v) }) := by
      unfold parse_anywhere
      rw [if_pos hm]
      simp only [hk]
      simp only [hv]
    unfold parse_line
    rw [ha]
  · intro sw k v hne
    unfold swStep
    by_cases hmem : swMem (sw.getLastD []) k = true
    · rw [if_pos hmem]
      exact iff_of_true (by simp) hmem
    · rw [if_neg hmem]
      rw [setLast_length sw _ hne]
      exact iff_of_false (by simp) hmem

/-! ### Dict membership and zip lemmas for the record shape -/

theorem dmem_dset (d : Dict) (ka : List Char) (va : PyVal) (k : List Char) :
    dmem (dset d ka va) k = (ka == k || dmem d k) := by
  induction d with
  | nil => simp [dset, dmem]
  | cons kv t ih =>
    obtain ⟨k2, v2⟩ := kv
    by_cases h : k2 = ka
    · subst h
      simp only [dset, if_pos rfl, dmem]
      cases hb : k2 == k <;> simp [hb]
    · simp only [dset, if_neg h, dmem, ih]
      cases hb : k2 == k <;> cases hc : ka == k <;> simp [hb, hc]

theorem dmem_dupdate (d e : Dict) (k : List Char) :
    dmem (dupdate d e) k = (dmem d k || dmem e k) := by
  induction e generalizing d with
  | nil => simp [dupdate, dmem]
  | cons kv t ih =>
    obtain ⟨ka, va⟩ := kv
    show dmem (dupdate (dset d ka va) t) k = _
    rw [ih, dmem_dset]
    show _ = (dmem d k || (ka == k || dmem t k))
    cases hb : ka == k <;> cases hc : dmem d k <;> simp [hb, hc]

theorem dmem_iff_mem (d : Dict) (k : List Char) :
    dmem d k = true ↔ k ∈ d.map Prod.fst := by
  induction d with
  | nil => simp [dmem]
  | cons kv t ih =>
    obtain ⟨ka, va⟩ := kv
    simp only [dmem, Bool.or_eq_true, beq_iff_eq, ih, List.map_cons,
      List.mem_cons]
    constructor
    · rintro (h | h)
      exacts [Or.inl h.symm, Or.inr h]
    · rintro (h | h)
      exacts [Or.inl h.symm, Or.inr h]

theorem map_fst_zip_take (l : List (List Char)) (l2 : List PyVal) :
    (List.zip l l2).map Prod.fst = l.take l2.length := by
  induction l generalizing l2 with
  | nil => simp
  | cons a t ih =>
    cases l2 with
    | nil => simp
    | cons b u => simp [ih]

theorem dget_dupdate_pair (e : Dict) (d : Dict) (k : List Char) (v : PyVal)
    (hnd : (e.map Prod.fst).Nodup) (hmem : (k, v) ∈ e) :
    dget (dupdate d e) k = some v := by
  induction e generalizing d with
  | nil => cases hmem
  | cons kv t ih =>
    obtain ⟨ka, va⟩ := kv
    show dget (dupdate (dset d ka va) t) k = some v
    rcases List.mem_cons.mp hmem with heq | hmemt
    · cases heq
      have hkt : dmem t k = false := by
        have hnk : k ∉ t.map Prod.fst := (List.nodup_cons.mp hnd).1
        cases hmemb : dmem t k
        · rfl
        · exact absurd ((dmem_iff_mem t k).mp hmemb) hnk
      rw [dget_dupdate_not_mem t _ k hkt]
      rw [dget_dset]
      simp
    · exact ih (dset d ka va) (List.nodup_cons.mp hnd).2 hmemt

theorem pyStarts_head_ne (a b : Char) (p q line : List Char) (hne : a ≠ b)
    (h : pyStarts (a :: p) line = true) : pyStarts (b :: q) line = false := by
  cases line with
  | nil => cases h
  | cons c cs =>
    have hac : a = c := by
      have := h
      simp only [pyStarts, Bool.and_eq_true, beq_iff_eq] at this
      exact this.1
    by_cases hbc : b = c
    · exact absurd (hac.trans hbc.symm) hne
    · simp [pyStarts, hbc]

set_option maxHeartbeats 1000000 in
/-- C4 (amended): a parseResult-state line starting with read/write/remove
commits exactly one record — the zipped column/value dict — onto results,
clearing the in-progress record, and no other parseResult-state line
commits anything; the committed record's keys are exactly the first
min(N, M) column names, where M is the row's token count, so every column
is bound when M >= N, while the trailing columns of a short row are
silently dropped (no explicit absent marker exists); with distinct column
names each zipped pair is bound to its own coerced value. -/
theorem parse_c4_amended (stp : List Char → Option Int)
    (st st2 : IorState) (line : List Char) (cols : List (List Char))
    (hp : pyStarts "read".toList line = true ∨
      pyStarts "write".toList line = true ∨
      pyStarts "remove".toList line = true)
    (hcols : st.result_columns = some cols)
    (hrec : st.this_record = none)
    (hmax : maxUpd st
        (dFromList (List.zip cols ((pySplitWs line).map coerce_value))) =
      Except.ok st2) :
    parse_result stp st line =
      Except.ok { st2 with
        results := some (st2.results.getD [] ++
          [dFromList (List.zip cols ((pySplitWs line).map coerce_value))]),
        this_record := none } ∧
    (∀ k, dmem (dFromList
          (List.zip cols ((pySplitWs line).map coerce_value))) k = true ↔
      k ∈ cols.take ((pySplitWs line).map coerce_value).length) ∧
    (cols.Nodup → ∀ kv ∈ List.zip cols ((pySplitWs line).map coerce_value),
      dget (dFromList (List.zip cols ((pySplitWs line).map coerce_value)))
        kv.1 = some kv.2) ∧
    (∀ l2 : List Char, pyStarts "read".toList l2 = false →
      pyStarts "write".toList l2 = false →
      pyStarts "remove".toList l2 = false →
      ∀ st4, parse_result stp st l2 = Except.ok st4 →
        st4.results = st.results) := by
  refine ⟨?_, ?_, ?_, ?_⟩
  · have hMax : pyStarts "Max".toList line = false := by
      rcases hp with h | h | h
      · exact pyStarts_head_ne 'r' 'M' ['e','a','d'] ['a','x'] line
          (by decide) h
      · exact pyStarts_head_ne 'w' 'M' ['r','i','t','e'] ['a','x'] line
          (by decide) h
      · exact pyStarts_head_ne 'r' 'M' ['e','m','o','v','e'] ['a','x'] line
          (by decide) h
    have hor : (pyStarts "read".toList line || pyStarts "write".toList line ||
        pyStarts "remove".toList line) = true := by
      rcases hp with h | h | h <;>
        simp only [h, Bool.or_true, Bool.true_or]
    unfold parse_result
    rw [if_neg (show ¬(pyStarts "Max".toList line = true) from by
      rw [hMax]; decide)]
    rw [if_pos hor]
    simp only [hcols, hrec, hmax]
  · intro k
    have h1 : dmem (dFromList
          (List.zip cols ((pySplitWs line).map coerce_value))) k =
        dmem (List.zip cols ((pySplitWs line).map coerce_value)) k := by
      show dmem (dupdate [] _) k = _
      rw [dmem_dupdate]
      rfl
    rw [h1, dmem_iff_mem, map_fst_zip_take]
  · intro hnd kv hkv
    apply dget_dupdate_pair
    · rw [map_fst_zip_take]
      exact List.Nodup.sublist (List.take_sublist _ _) hnd
    · simpa using hkv
  · intro l2 h1 h2 h3 st4 h
    unfold parse_result at h
    by_cases hM : pyStarts "Max".toList l2 = true
    · rw [if_pos hM] at h
      cases h
      rfl
    · rw [if_neg hM] at h
      rw [if_neg (show ¬((pyStarts "read".toList l2 ||
          pyStarts "write".toList l2 || pyStarts "remove".toList l2) = true)
          from by simp only [h1, h2, h3]; decide)] at h
      repeat' (first | split at h | dsimp only at h)
      all_goals cases h <;> rfl

set_option maxHeartbeats 1000000 in
/-- C4 witness: the amended statement at stTwo and the row "write 300". -/
theorem parse_c4_amended_witness :
    (parse_result stpZero stTwo "write 300".toList =
      Except.ok { { stTwo with max_write_mibs := some (PyVal.vint 300) } with
        results := some (({ stTwo with
              max_write_mibs := some (PyVal.vint 300) } : IorState).results.getD [] ++
          [dFromList (List.zip cCols
            ((pySplitWs "write 300".toList).map coerce_value))]),
        this_record := none }) ∧
    (∀ k, dmem (dFromList (List.zip cCols
          ((pySplitWs "write 300".toList).map coerce_value))) k = true ↔
      k ∈ cCols.take ((pySplitWs "write 300".toList).map
          coerce_value).length) ∧
    (cCols.Nodup → ∀ kv ∈ List.zip cCols
        ((pySplitWs "write 300".toList).map coerce_value),
      dget (dFromList (List.zip cCols
          ((pySplitWs "write 300".toList).map coerce_value))) kv.1 =
        some kv.2) ∧
    (∀ l2 : List Char, pyStarts "read".toList l2 = false →
      pyStarts "write".toList l2 = false →
      pyStarts "remove".toList l2 = false →
      ∀ st4, parse_result stpZero stTwo l2 = Except.ok st4 →
        st4.results = stTwo.results) :=
  parse_c4_amended stpZero stTwo
    { stTwo with max_write_mibs := some (PyVal.vint 300) }
    "write 300".toList cCols
    (Or.inr (Or.inl (by decide)))
    rfl rfl (by with_unfolding_all rfl)

end N10
